import Mathlib

/-!
Verification of the trezor-firmware transaction-signing core
(`core/src/apps/wallet/sign_tx/{signing,decred,segwit_bip143}.py`) against its
natural-language specification.

Shallow embedding conventions:
* byte strings are `List Nat` (each element a byte value);
* hash primitives (SHA-256 / BLAKE-256) are out of scope per spec section 1 and
  are modelled by an explicit hash-function parameter `H : Bytes → Bytes`;
  theorems that depend on collision-freeness take `Function.Injective H`;
* `HashWriter` sinks are modelled as the accumulated byte stream fed to them;
* fallible code returns `Except Err`; an unhandled Python exception
  (AttributeError / IndexError / TypeError / assertion) is `Err.InternalError`;
* modules of the repository that are not part of the provided sources
  (`writers.py`, `scripts.py`, `multisig.py`, `helpers.py`, `zcash.py`) are
  modelled from the spec; such definitions carry a doc comment starting with
  `Modelled from the spec:`.
-/

namespace TrezorSign

/-- Byte strings: lists of byte values. -/
abbrev Bytes := List Nat

/-! ### Writers (spec section 4.1)

`writers.py` is not among the provided sources; the primitive serializers are
modelled from the spec: "Variable-length integers, little-endian fixed widths,
length-prefixed byte strings", "reversed byte run (for little-endian hashes)".
-/

/-- Modelled from the spec: `writers.write_uint16`, little-endian 2-byte integer. -/
def write_uint16 (n : Nat) : Bytes :=
  [n % 256, n / 2 ^ 8 % 256]

/-- Modelled from the spec: `writers.write_uint32`, little-endian 4-byte integer. -/
def write_uint32 (n : Nat) : Bytes :=
  [n % 256, n / 2 ^ 8 % 256, n / 2 ^ 16 % 256, n / 2 ^ 24 % 256]

/-- Modelled from the spec: `writers.write_uint64`, little-endian 8-byte integer. -/
def write_uint64 (n : Nat) : Bytes :=
  [n % 256, n / 2 ^ 8 % 256, n / 2 ^ 16 % 256, n / 2 ^ 24 % 256,
   n / 2 ^ 32 % 256, n / 2 ^ 40 % 256, n / 2 ^ 48 % 256, n / 2 ^ 56 % 256]

/-- Modelled from the spec: `writers.write_varint`, Bitcoin compact-size integer. -/
def write_varint (n : Nat) : Bytes :=
  if n < 0xfd then [n]
  else if n ≤ 0xffff then 0xfd :: write_uint16 n
  else if n ≤ 0xffffffff then 0xfe :: write_uint32 n
  else 0xff :: write_uint64 n

/-- Modelled from the spec: `writers.write_bytes_reversed` ("reversed byte run"). -/
def write_bytes_reversed (b : Bytes) : Bytes := b.reverse

/-- Modelled from the spec: `writers.write_bytes_prefixed`
("length-prefixed byte string"): compact-size length, then the bytes. -/
def write_bytes_prefixed (b : Bytes) : Bytes := write_varint b.length ++ b

/-- Modelled from the spec: `writers.get_tx_hash(sink, double, reverse)` --
"finalizes a digest, optionally applies a second round, and optionally
byte-reverses".  The sink is the accumulated stream `s`; the hash primitive is
the parameter `H`. -/
def get_tx_hash (H : Bytes → Bytes) (s : Bytes) (double : Bool) (reverse : Bool) : Bytes :=
  let d := if double then H (H s) else H s
  if reverse then d.reverse else d

/-! ### Decoders (proof machinery, not part of the program)

To show that distinct field values fed into a rolling hash produce distinct
byte streams, we exhibit a decoder that recovers the fields from the stream. -/

/-- Decode a little-endian 2-byte integer; return the value and the rest. -/
def read_uint16 : Bytes → Option (Nat × Bytes)
  | b0 :: b1 :: r => some (b0 + 2 ^ 8 * b1, r)
  | _ => none

/-- Decode a little-endian 4-byte integer; return the value and the rest. -/
def read_uint32 : Bytes → Option (Nat × Bytes)
  | b0 :: b1 :: b2 :: b3 :: r => some (b0 + 2 ^ 8 * b1 + 2 ^ 16 * b2 + 2 ^ 24 * b3, r)
  | _ => none

/-- Decode a little-endian 8-byte integer; return the value and the rest. -/
def read_uint64 : Bytes → Option (Nat × Bytes)
  | b0 :: b1 :: b2 :: b3 :: b4 :: b5 :: b6 :: b7 :: r =>
      some (b0 + 2 ^ 8 * b1 + 2 ^ 16 * b2 + 2 ^ 24 * b3 +
            2 ^ 32 * b4 + 2 ^ 40 * b5 + 2 ^ 48 * b6 + 2 ^ 56 * b7, r)
  | _ => none

/-- Decode a Bitcoin compact-size integer; return the value and the rest. -/
def read_varint : Bytes → Option (Nat × Bytes)
  | [] => none
  | b :: r =>
    if b < 0xfd then some (b, r)
    else if b = 0xfd then read_uint16 r
    else if b = 0xfe then read_uint32 r
    else read_uint64 r

/-- Take exactly `k` bytes from the stream. -/
def readBytes : Nat → Bytes → Option (Bytes × Bytes)
  | 0, s => some ([], s)
  | _ + 1, [] => none
  | k + 1, b :: s =>
    match readBytes k s with
    | some (xs, r) => some (b :: xs, r)
    | none => none

/-- Decode exactly `k` little-endian 4-byte integers. -/
def readU32s : Nat → Bytes → Option (List Nat × Bytes)
  | 0, s => some ([], s)
  | k + 1, s =>
    match read_uint32 s with
    | some (v, s1) =>
      match readU32s k s1 with
      | some (vs, r) => some (v :: vs, r)
      | none => none
    | none => none

/-! ### Data model (spec section 3, message record types) -/

/-- Input script type variants (`trezor.messages.InputScriptType`; the record
module is auto-generated and out of scope, the variant set is from spec
section 3). -/
inductive InputScriptType where
  | SPENDADDRESS
  | SPENDMULTISIG
  | SPENDWITNESS
  | SPENDP2SHWITNESS
deriving DecidableEq, Repr, Fintype

/-- Wire code of an input script type (protobuf enum values of the
auto-generated record module; only distinctness matters for the proofs). -/
def InputScriptType.code : InputScriptType → Nat
  | .SPENDADDRESS => 0
  | .SPENDMULTISIG => 1
  | .SPENDWITNESS => 3
  | .SPENDP2SHWITNESS => 4

/-- Output script type variants (`trezor.messages.OutputScriptType`). -/
inductive OutputScriptType where
  | PAYTOADDRESS
  | PAYTOSCRIPTHASH
  | PAYTOMULTISIG
  | PAYTOOPRETURN
  | PAYTOWITNESS
  | PAYTOP2SHWITNESS
deriving DecidableEq, Repr

/-- Multisig descriptor: pubkey set and threshold `m` (spec section 3).
`multisig.py` is not among the sources; per spec section 9 the group identity
is "the set of pubkeys plus the threshold m". -/
structure MultisigRedeemScriptType where
  pubkeys : List Bytes
  m : Nat
deriving DecidableEq, Repr

/-- `TxInputType` (spec section 3).  `script_sig` is the derived field the
signer attaches before serialization; host messages carry it empty, previous
transactions carry the real one. -/
structure TxInputType where
  address_n : List Nat
  prev_hash : Bytes
  prev_index : Nat
  script_type : InputScriptType
  sequence : Nat
  amount : Option Nat
  multisig : Option MultisigRedeemScriptType
  script_sig : Bytes
  decred_tree : Nat
deriving DecidableEq, Repr

/-- `TxOutputType` (spec section 3): typed output streamed by the host.  The
destination address string is consumed only by the (out-of-scope) address
decoder inside `output_derive_script`, so it is not carried here. -/
structure TxOutputType where
  address_n : List Nat
  amount : Nat
  script_type : OutputScriptType
  multisig : Option MultisigRedeemScriptType
deriving DecidableEq, Repr

/-- `TxOutputBinType` (spec section 3): derived binary output form. -/
structure TxOutputBinType where
  amount : Nat
  script_pubkey : Bytes
  decred_script_version : Option Nat
deriving DecidableEq, Repr

/-- `SignTx` transaction header (spec section 3). -/
structure SignTx where
  version : Nat
  inputs_count : Nat
  outputs_count : Nat
  lock_time : Nat
  expiry : Nat
  timestamp : Nat
  version_group_id : Nat
  branch_id : Nat
deriving DecidableEq, Repr

/-- Per-coin configuration consumed by the core (spec section 6). -/
structure CoinInfo where
  sign_hash_double : Bool
  segwit : Bool
  force_bip143 : Bool
  overwintered : Bool
  timestamp : Bool
  extra_data : Bool
  negative_fee : Bool
  fork_id : Option Nat
  maxfee_kb : Nat
deriving DecidableEq, Repr

/-- Error kinds (spec section 7).  `InternalError` stands for an unhandled
Python exception (AttributeError, IndexError, TypeError, failed assertion),
which also aborts the session but is not a structured `SigningError`. -/
inductive Err where
  | DataError
  | ProcessError
  | NotEnoughFunds
  | ActionCancelled
  | InternalError
deriving DecidableEq, Repr

/-- `utils.BITCOIN_ONLY` build flag.  The spec covers the altcoin-enabled
build (Zcash, Decred, timestamped coins are all in scope), so the flag is
false. -/
def BITCOIN_ONLY : Bool := false

/-- `_BIP32_WALLET_DEPTH` (signing.py line 33). -/
def BIP32_WALLET_DEPTH : Nat := 2

/-- `_BIP32_CHANGE_CHAIN` (signing.py line 36). -/
def BIP32_CHANGE_CHAIN : Nat := 1

/-- `_BIP32_MAX_LAST_ELEMENT` (signing.py line 40). -/
def BIP32_MAX_LAST_ELEMENT : Nat := 1000000

/-- `zcash.OVERWINTERED` version flag (`zcash.py` is not among the sources;
the value is the standard Zcash header bit, spec section 6 layout
`(version|OVERWINTERED)`). -/
def OVERWINTERED : Nat := 0x80000000

/-- `DECRED_SERIALIZE_NO_WITNESS` (decred.py line 24). -/
def DECRED_SERIALIZE_NO_WITNESS : Nat := 1 <<< 16

/-- `DECRED_SERIALIZE_WITNESS_SIGNING` (decred.py line 25). -/
def DECRED_SERIALIZE_WITNESS_SIGNING : Nat := 3 <<< 16

/-- `DECRED_SIGHASHALL` (decred.py line 27). -/
def DECRED_SIGHASHALL : Nat := 1

/-- `Bitcoin.get_hash_type` (signing.py lines 555-561): SIGHASH_ALL, with the
BCH fork-id extension when the coin defines one. -/
def get_hash_type (coin : CoinInfo) : Nat :=
  match coin.fork_id with
  | some fid => Nat.lor (Nat.lor 1 (fid <<< 8)) 0x40
  | none => 1

/-! ### Script builders (spec section 4.2; `scripts.py` is not among the sources) -/

/-- Modelled from the spec: `scripts.output_script_p2pkh(pkh20)` =
`OP_DUP OP_HASH160 <20> OP_EQUALVERIFY OP_CHECKSIG`. -/
def output_script_p2pkh (pubkeyhash : Bytes) : Bytes :=
  [0x76, 0xa9, 0x14] ++ pubkeyhash ++ [0x88, 0xac]

/-- Modelled from the spec: a minimal data push (length byte then data). -/
def script_push (b : Bytes) : Bytes := b.length :: b

/-- Modelled from the spec: `scripts.output_script_multisig(pubkeys, m)` =
standard `m <k1>..<kn> n OP_CHECKMULTISIG` (caller-supplied ordering
retained). -/
def output_script_multisig (pubkeys : List Bytes) (m : Nat) : Bytes :=
  (0x50 + m) :: (pubkeys.map script_push).flatten ++ [0x50 + pubkeys.length, 0xae]

/-- Modelled from the spec: `multisig.multisig_get_pubkeys(ms)` returns the
pubkey list of the descriptor. -/
def multisig_get_pubkeys (ms : MultisigRedeemScriptType) : List Bytes := ms.pubkeys

/-- Modelled from the spec: `multisig.multisig_pubkey_index(ms, pubkey)` --
the position of our pubkey in the descriptor; raises when the signing key is
not part of the group. -/
def multisig_pubkey_index (ms : MultisigRedeemScriptType) (pubkey : Bytes) :
    Except Err Nat :=
  match ms.pubkeys.indexOf? pubkey with
  | some i => .ok i
  | none => .error .DataError

/-! ### Multisig fingerprint (spec section 4.5; `multisig.py` is not among the
sources).  The fingerprint hash is modelled as the identity it commits to:
the pubkey multiset plus the threshold (spec section 9: "treat the set of
pubkeys plus the threshold m as the identity"). -/

/-- Fingerprint value of one descriptor: pubkey set (order-insensitive) and
threshold. -/
def multisig_fingerprint_of (ms : MultisigRedeemScriptType) : Multiset Bytes × Nat :=
  ((ms.pubkeys : Multiset Bytes), ms.m)

/-- `MultisigFingerprint` running state (spec sections 3 and 4.5). -/
structure MultisigFingerprint where
  mismatch : Bool
  fingerprint : Option (Multiset Bytes × Nat)
deriving DecidableEq

/-- Modelled from the spec: `MultisigFingerprint.add(ms)` -- "on first call
stores it, on subsequent calls requires equality or sets mismatch". -/
def MultisigFingerprint.add (fp : MultisigFingerprint) (ms : MultisigRedeemScriptType) :
    MultisigFingerprint :=
  match fp.fingerprint with
  | none => { fp with fingerprint := some (multisig_fingerprint_of ms) }
  | some f =>
    if f = multisig_fingerprint_of ms then fp else { fp with mismatch := true }

/-- Modelled from the spec: `MultisigFingerprint.matches(ms)` -- "true only
when no mismatch has been observed and the fingerprint of ms equals the
stored one". -/
def MultisigFingerprint.matches (fp : MultisigFingerprint) (ms : MultisigRedeemScriptType) :
    Bool :=
  !fp.mismatch && fp.fingerprint = some (multisig_fingerprint_of ms)

/-! ### Wallet path (signing.py lines 700-720) -/

/-- Python `txi.address_n[:-_BIP32_WALLET_DEPTH]`: the path with the final
two levels stripped. -/
def stripped_address_n (txi : TxInputType) : List Nat :=
  txi.address_n.take (txi.address_n.length - BIP32_WALLET_DEPTH)

/-- `input_extract_wallet_path` (signing.py lines 700-710). -/
def input_extract_wallet_path (txi : TxInputType) (wallet_path : Option (List Nat)) :
    Option (List Nat) :=
  match wallet_path with
  | none => none
  | some wp =>
    let address_n := stripped_address_n txi
    if address_n = [] then none
    else if wp = [] then some address_n
    else if wp = address_n then some address_n
    else none

/-- `input_check_wallet_path` (signing.py lines 713-720). -/
def input_check_wallet_path (txi : TxInputType) (wallet_path : Option (List Nat)) :
    Except Err Unit :=
  match wallet_path with
  | none => .ok ()
  | some wp =>
    if wp = stripped_address_n txi then .ok () else .error .ProcessError

/-- `input_check_multisig_fingerprint` (signing.py lines 723-732). -/
def input_check_multisig_fingerprint (txi : TxInputType) (fp : MultisigFingerprint) :
    Except Err Unit :=
  if fp.mismatch = false then
    match txi.multisig with
    | none => .error .ProcessError
    | some ms => if fp.matches ms then .ok () else .error .ProcessError
  else .ok ()

/-- `input_is_segwit` (signing.py lines 693-697). -/
def input_is_segwit (i : TxInputType) : Bool :=
  i.script_type = .SPENDWITNESS || i.script_type = .SPENDP2SHWITNESS

/-! ### Record serializers (`writers.py`, not among the sources) -/

/-- Amount field as written: `0` when the optional amount is absent. -/
def optAmount (a : Option Nat) : Nat := a.getD 0

/-- Modelled from the spec: `writers.write_tx_input` -- wire serialization of
one input: reversed `prev_hash`, `prev_index`, length-prefixed `script_sig`,
`sequence` (spec section 6 layout and section 4.1 primitives). -/
def write_tx_input (txi : TxInputType) : Bytes :=
  write_bytes_reversed txi.prev_hash ++ write_uint32 txi.prev_index ++
  write_bytes_prefixed txi.script_sig ++ write_uint32 txi.sequence

/-- Modelled from the spec: `writers.write_tx_input_check` -- the structural
digest of one input fed to `h_first`/`h_second`.  Spec section 3: a `TxInput`
"must be streamed identically in phase 1 and phase 2; any divergence is
fatal"; P6 lists amount, address, sequence and script_type among the digested
fields.  Serializes the BIP-32 path (length-prefixed), `prev_hash`,
`prev_index`, `script_type`, `sequence` and `amount`. -/
def write_tx_input_check (txi : TxInputType) : Bytes :=
  write_varint txi.address_n.length ++ (txi.address_n.map write_uint32).flatten ++
  write_bytes_reversed txi.prev_hash ++ write_uint32 txi.prev_index ++
  write_uint32 txi.script_type.code ++ write_uint32 txi.sequence ++
  write_uint64 (optAmount txi.amount)

/-- Modelled from the spec: `writers.write_tx_output` -- binary output form:
amount (u64), Decred script version (u16) when present, length-prefixed
`script_pubkey` (spec sections 3 and 4.3 `value‖script_version‖pkScript`). -/
def write_tx_output (o : TxOutputBinType) : Bytes :=
  write_uint64 o.amount ++
  (match o.decred_script_version with
   | some v => write_uint16 v
   | none => []) ++
  write_bytes_prefixed o.script_pubkey

/-- Modelled from the spec: `writers.write_tx_input_decred` -- Decred prefix
serialization of one input: outpoint (reversed hash, index), tree, sequence
(spec section 4.3 "all inputs (outpoint+tree+sequence)"). -/
def write_tx_input_decred (txi : TxInputType) : Bytes :=
  write_bytes_reversed txi.prev_hash ++ write_uint32 txi.prev_index ++
  [txi.decred_tree % 256] ++ write_uint32 txi.sequence

/-! ### Views and decoders for the structural digest streams -/

/-- The fields of an input that `write_tx_input_check` commits to. -/
structure InputCheckView where
  address_n : List Nat
  prev_hash : Bytes
  prev_index : Nat
  script_code : Nat
  sequence : Nat
  amount : Nat
deriving DecidableEq, Repr

/-- View of an input as committed by `write_tx_input_check`. -/
def inputCheckView (txi : TxInputType) : InputCheckView :=
  ⟨txi.address_n, txi.prev_hash, txi.prev_index, txi.script_type.code,
   txi.sequence, optAmount txi.amount⟩

/-- Well-formedness of host-streamed input fields: field widths fit their
wire encodings and the previous-transaction hash is 32 bytes. -/
def TxInputType.wf (txi : TxInputType) : Prop :=
  txi.address_n.length < 2 ^ 64 ∧ (∀ a ∈ txi.address_n, a < 2 ^ 32) ∧
  txi.prev_hash.length = 32 ∧ txi.prev_index < 2 ^ 32 ∧
  txi.sequence < 2 ^ 32 ∧ optAmount txi.amount < 2 ^ 64

instance (txi : TxInputType) : Decidable txi.wf := by
  unfold TxInputType.wf; infer_instance

/-- Decoder for `write_tx_input_check`. -/
def readInputCheck (s : Bytes) : Option (InputCheckView × Bytes) :=
  match read_varint s with
  | none => none
  | some (k, s) =>
  match readU32s k s with
  | none => none
  | some (addr, s) =>
  match readBytes 32 s with
  | none => none
  | some (ph_rev, s) =>
  match read_uint32 s with
  | none => none
  | some (pi, s) =>
  match read_uint32 s with
  | none => none
  | some (st, s) =>
  match read_uint32 s with
  | none => none
  | some (sq, s) =>
  match read_uint64 s with
  | none => none
  | some (am, s) => some (⟨addr, ph_rev.reverse, pi, st, sq, am⟩, s)

/-- Decode exactly `k` input-check records. -/
def readInputChecks : Nat → Bytes → Option (List InputCheckView × Bytes)
  | 0, s => some ([], s)
  | k + 1, s =>
    match readInputCheck s with
    | none => none
    | some (v, s1) =>
      match readInputChecks k s1 with
      | none => none
      | some (vs, r) => some (v :: vs, r)

/-- The fields of an output that `write_tx_output` commits to (Bitcoin form,
no Decred script version). -/
structure OutputView where
  amount : Nat
  script_pubkey : Bytes
deriving DecidableEq, Repr

/-- View of a binary output as committed by `write_tx_output`. -/
def outputView (o : TxOutputBinType) : OutputView := ⟨o.amount, o.script_pubkey⟩

/-- Well-formedness of a Bitcoin-family binary output. -/
def TxOutputBinType.wf (o : TxOutputBinType) : Prop :=
  o.amount < 2 ^ 64 ∧ o.script_pubkey.length < 2 ^ 64 ∧ o.decred_script_version = none

instance (o : TxOutputBinType) : Decidable o.wf := by
  unfold TxOutputBinType.wf; infer_instance

/-- Decoder for `write_tx_output` (Bitcoin form). -/
def readOutput (s : Bytes) : Option (OutputView × Bytes) :=
  match read_uint64 s with
  | none => none
  | some (am, s) =>
  match read_varint s with
  | none => none
  | some (k, s) =>
  match readBytes k s with
  | none => none
  | some (spk, s) => some (⟨am, spk⟩, s)

/-- Decode exactly `k` output records. -/
def readOutputs : Nat → Bytes → Option (List OutputView × Bytes)
  | 0, s => some ([], s)
  | k + 1, s =>
    match readOutput s with
    | none => none
    | some (v, s1) =>
      match readOutputs k s1 with
      | none => none
      | some (vs, r) => some (v :: vs, r)

/-! ### The phase-1 structural digest stream (`h_first`) -/

/-- The byte stream fed to `h_first` during phase 1: every input through
`write_tx_input_check` (signing.py line 161), then every output through
`write_tx_output` (signing.py line 217). -/
def h_first_stream (I : List TxInputType) (O : List TxOutputBinType) : Bytes :=
  (I.map write_tx_input_check).flatten ++ (O.map write_tx_output).flatten

/-! ### BIP-143 prefix hasher (`segwit_bip143.py`) -/

/-- `Bip143` rolling state (segwit_bip143.py lines 27-31): three independent
SHA-256 streams, modelled as the accumulated bytes. -/
structure Bip143 where
  h_prevouts : Bytes
  h_sequence : Bytes
  h_outputs : Bytes
deriving DecidableEq, Repr

/-- Fresh `Bip143` hasher (segwit_bip143.py `__init__`). -/
def Bip143.init : Bip143 := ⟨[], [], []⟩

/-- `Bip143.add_input` (segwit_bip143.py lines 33-36) -- the only per-input
method the in-src `Bip143` defines: reversed `prev_hash` and `prev_index`
into the prevouts stream, `sequence` into the sequence stream.  Note that
signing.py lines 162-163 never call it: they call `add_prevouts` and
`add_sequence`, which this class does not define. -/
def Bip143.add_input (b : Bip143) (txi : TxInputType) : Bip143 :=
  { b with
    h_prevouts :=
      b.h_prevouts ++ write_bytes_reversed txi.prev_hash ++ write_uint32 txi.prev_index,
    h_sequence := b.h_sequence ++ write_uint32 txi.sequence }

/-- `Bip143.add_output` (segwit_bip143.py lines 41-42). -/
def Bip143.add_output (b : Bip143) (o : TxOutputBinType) : Bip143 :=
  { b with h_outputs := b.h_outputs ++ write_tx_output o }

/-- `Bip143.get_prevouts_hash` (segwit_bip143.py lines 47-48). -/
def Bip143.get_prevouts_hash (H : Bytes → Bytes) (b : Bip143) (coin : CoinInfo) : Bytes :=
  get_tx_hash H b.h_prevouts coin.sign_hash_double false

/-- `Bip143.get_sequence_hash` (segwit_bip143.py lines 50-51). -/
def Bip143.get_sequence_hash (H : Bytes → Bytes) (b : Bip143) (coin : CoinInfo) : Bytes :=
  get_tx_hash H b.h_sequence coin.sign_hash_double false

/-- `Bip143.get_outputs_hash` (segwit_bip143.py lines 53-54). -/
def Bip143.get_outputs_hash (H : Bytes → Bytes) (b : Bip143) (coin : CoinInfo) : Bytes :=
  get_tx_hash H b.h_outputs coin.sign_hash_double false

/-- `derive_script_code` (segwit_bip143.py lines 95-115): multisig script when
the input carries a descriptor, else classic p2pkh for the three single-key
types, else a `Bip143Error(DataError)`. -/
def derive_script_code (txi : TxInputType) (pubkeyhash : Bytes) : Except Err Bytes :=
  match txi.multisig with
  | some ms => .ok (output_script_multisig (multisig_get_pubkeys ms) ms.m)
  | none =>
    if txi.script_type = .SPENDWITNESS ∨ txi.script_type = .SPENDP2SHWITNESS ∨
        txi.script_type = .SPENDADDRESS then
      .ok (output_script_p2pkh pubkeyhash)
    else
      .error .DataError

/-- `Bip143.preimage_hash` (segwit_bip143.py lines 59-90).  The
`ensure(not coin.overwintered)` assertion is modelled as `InternalError`. -/
def Bip143.preimage_hash (H : Bytes → Bytes) (b : Bip143) (coin : CoinInfo) (tx : SignTx)
    (txi : TxInputType) (pubkeyhash : Bytes) (sighash : Nat) : Except Err Bytes :=
  if coin.overwintered then .error .InternalError
  else
    match derive_script_code txi pubkeyhash with
    | .error e => .error e
    | .ok script_code =>
      let h_preimage :=
        write_uint32 tx.version ++
        b.get_prevouts_hash H coin ++
        b.get_sequence_hash H coin ++
        write_bytes_reversed txi.prev_hash ++
        write_uint32 txi.prev_index ++
        write_bytes_prefixed script_code ++
        write_uint64 (optAmount txi.amount) ++
        write_uint32 txi.sequence ++
        b.get_outputs_hash H coin ++
        write_uint32 tx.lock_time ++
        write_uint32 sighash
      .ok (get_tx_hash H h_preimage coin.sign_hash_double false)

/-! ### Zcash prefix hasher (modelled from the spec; `zcash.py` is not among
the sources) -/

/-- Modelled from the spec: the rolling state of the ZIP-143 (Overwinter) and
ZIP-243 (Sapling) hashers of `zcash.py` (spec sections 4.3 and 9): per-stream
personalized BLAKE-2b hashes analogous to BIP-143, parameterized by the
branch id (which, per the spec, parameterizes the personalization -- part of
the hash primitive abstracted by `H`). -/
structure ZcashHasher where
  branch_id : Nat
  h_prevouts : Bytes
  h_sequence : Bytes
  h_outputs : Bytes
deriving DecidableEq, Repr

/-- Modelled from the spec: `add_prevouts` of the Zcash hashers (spec
section 9): the outpoint into the prevouts stream. -/
def ZcashHasher.add_prevouts (z : ZcashHasher) (txi : TxInputType) : ZcashHasher :=
  { z with h_prevouts :=
      z.h_prevouts ++ write_bytes_reversed txi.prev_hash ++ write_uint32 txi.prev_index }

/-- Modelled from the spec: `add_sequence` of the Zcash hashers (spec
section 9). -/
def ZcashHasher.add_sequence (z : ZcashHasher) (txi : TxInputType) : ZcashHasher :=
  { z with h_sequence := z.h_sequence ++ write_uint32 txi.sequence }

/-- Modelled from the spec: `add_output` of the Zcash hashers (spec
section 9). -/
def ZcashHasher.add_output (z : ZcashHasher) (o : TxOutputBinType) : ZcashHasher :=
  { z with h_outputs := z.h_outputs ++ write_tx_output o }

/-- Modelled from the spec: `preimage_hash` of the Zcash hashers (spec
sections 4.3 and 4.6.3): `version|OVERWINTERED`, `nVersionGroupId`, the
three finalized prefix digests, a zeroed join-split digest (and for Sapling
zeroed shielded-spend and shielded-output digests), locktime,
`nExpiryHeight`, for Sapling a zero `valueBalance`, the sighash type, then
the outpoint, length-prefixed scriptCode (`derive_script_code`, in src),
amount and sequence.  The personalized BLAKE-2b is abstracted by `H` like
every hash primitive. -/
def ZcashHasher.preimage_hash (z : ZcashHasher) (H : Bytes → Bytes) (coin : CoinInfo)
    (tx : SignTx) (txi : TxInputType) (pubkeyhash : Bytes) (sighash : Nat) :
    Except Err Bytes :=
  match derive_script_code txi pubkeyhash with
  | .error e => .error e
  | .ok script_code =>
    let zero32 : Bytes := List.replicate 32 0
    let s :=
      write_uint32 (Nat.lor tx.version OVERWINTERED) ++
      write_uint32 tx.version_group_id ++
      get_tx_hash H z.h_prevouts coin.sign_hash_double false ++
      get_tx_hash H z.h_sequence coin.sign_hash_double false ++
      get_tx_hash H z.h_outputs coin.sign_hash_double false ++
      zero32 ++
      (if tx.version = 4 then zero32 ++ zero32 else []) ++
      write_uint32 tx.lock_time ++
      write_uint32 tx.expiry ++
      (if tx.version = 4 then write_uint64 0 else []) ++
      write_uint32 sighash ++
      write_bytes_reversed txi.prev_hash ++
      write_uint32 txi.prev_index ++
      write_bytes_prefixed script_code ++
      write_uint64 (optAmount txi.amount) ++
      write_uint32 txi.sequence
    .ok (get_tx_hash H s coin.sign_hash_double false)

/-! ### Decred prefix hasher and sighash (`decred.py`) -/

/-- `DecredPrefixHasher.__init__` (decred.py lines 37-40): the initial prefix
stream. -/
def decred_hasher_init (tx : SignTx) : Bytes :=
  write_uint32 (Nat.lor tx.version DECRED_SERIALIZE_NO_WITNESS) ++
  write_varint tx.inputs_count

/-- `DecredPrefixHasher.add_prevouts` (decred.py lines 42-43). -/
def decred_add_prevouts (h : Bytes) (txi : TxInputType) : Bytes :=
  h ++ write_tx_input_decred txi

/-- `DecredPrefixHasher.add_output_count` (decred.py lines 48-49). -/
def decred_add_output_count (h : Bytes) (tx : SignTx) : Bytes :=
  h ++ write_varint tx.outputs_count

/-- `DecredPrefixHasher.add_output` (decred.py lines 51-52). -/
def decred_add_output (h : Bytes) (o : TxOutputBinType) : Bytes :=
  h ++ write_tx_output o

/-- `DecredPrefixHasher.add_locktime_expiry` (decred.py lines 54-56). -/
def decred_add_locktime_expiry (h : Bytes) (tx : SignTx) : Bytes :=
  h ++ write_uint32 tx.lock_time ++ write_uint32 tx.expiry

/-- The full phase-1 prefix stream of the Decred signer: header and input
count at `initialize`, every input via `add_prevouts` (`add_sequence` is a
no-op), the output count at the first output (`Decred.phase1_confirm_output`),
every output, then locktime and expiry (`Decred.phase1`). -/
def decred_phase1_stream (tx : SignTx) (I : List TxInputType) (O : List TxOutputBinType) :
    Bytes :=
  decred_add_locktime_expiry
    (O.foldl decred_add_output
      ((if O.isEmpty then id else fun h => decred_add_output_count h tx)
        (I.foldl decred_add_prevouts (decred_hasher_init tx))))
    tx

/-- `DecredPrefixHasher.prefix_hash` (decred.py lines 58-59): a single
finalization of the rolling hash (no second round, no reversal). -/
def decred_prefix_digest (H : Bytes → Bytes) (h : Bytes) : Bytes := H h

/-- The witness stream hashed per signed input (decred.py lines 134-144):
`version|SERIALIZE_WITNESS_SIGNING`, input count, then for each input
position an empty script (`varint(0)`) except the one being signed, which
receives the length-prefixed previous pkScript. -/
def decred_witness_stream (tx : SignTx) (i_sign : Nat) (prev_pkscript : Bytes) : Bytes :=
  write_uint32 (Nat.lor tx.version DECRED_SERIALIZE_WITNESS_SIGNING) ++
  write_varint tx.inputs_count ++
  ((List.range tx.inputs_count).map
    (fun ii => if ii = i_sign then write_bytes_prefixed prev_pkscript
               else write_varint 0)).flatten

/-- The per-input signing digest (decred.py lines 146-155):
`hash(SIGHASHALL ‖ prefix_hash ‖ witness_hash)`. -/
def decred_sig_digest (H : Bytes → Bytes) (coin : CoinInfo) (tx : SignTx) (i_sign : Nat)
    (prev_pkscript : Bytes) (pre_hash : Bytes) : Bytes :=
  let witness_hash :=
    get_tx_hash H (decred_witness_stream tx i_sign prev_pkscript) coin.sign_hash_double false
  get_tx_hash H
    (write_uint32 DECRED_SIGHASHALL ++ pre_hash ++ witness_hash)
    coin.sign_hash_double false

/-- The per-input portion of `Decred.phase2` up to the signing digest
(decred.py lines 114-156): path and fingerprint checks, previous pkScript
derivation, witness hash and final digest.  `pubkeyOf` abstracts
`keychain.derive(...).public_key()` and `hashPub` abstracts
`addresses.ecdsa_hash_pubkey` (out of scope per spec section 1).  The
`SPENDMULTISIG` branch with an absent descriptor is an unhandled Python
attribute error. -/
def decred_phase2_sign_input (H : Bytes → Bytes) (pubkeyOf : List Nat → Bytes)
    (hashPub : Bytes → Bytes) (coin : CoinInfo) (tx : SignTx)
    (wallet_path : Option (List Nat)) (fp : MultisigFingerprint)
    (pre_hash : Bytes) (i_sign : Nat) (txi : TxInputType) : Except Err Bytes :=
  match input_check_wallet_path txi wallet_path with
  | .error e => .error e
  | .ok _ =>
  match input_check_multisig_fingerprint txi fp with
  | .error e => .error e
  | .ok _ =>
  match (match txi.script_type with
         | .SPENDMULTISIG =>
           match txi.multisig with
           | none => Except.error Err.InternalError
           | some ms => Except.ok (output_script_multisig (multisig_get_pubkeys ms) ms.m)
         | .SPENDADDRESS =>
           Except.ok (output_script_p2pkh (hashPub (pubkeyOf txi.address_n)))
         | _ => Except.error Err.DataError) with
  | .error e => .error e
  | .ok prev_pkscript => .ok (decred_sig_digest H coin tx i_sign prev_pkscript pre_hash)

/-! ### The session hasher (`self.hash143`) and its method dispatch -/

/-- The session's prefix hasher: the dynamic type of `self.hash143` as
selected by `Bitcoin.init_hash143` (signing.py lines 98-112) or
`Decred.init_hash143` (decred.py lines 70-71).  The spec models the
polymorphic attribute as a tagged variant (spec section 9). -/
inductive Hash143 where
  | bip143 (b : Bip143)
  | zip (z : ZcashHasher)
  | decred (h : Bytes)
deriving DecidableEq

/-- `Bitcoin.init_hash143` (signing.py lines 98-112): overwintered coins get
the (spec-modelled) ZIP-143 or ZIP-243 hasher according to the transaction
version, defaulting the branch id to Overwinter or Sapling when unset
(`tx.branch_id or ...`); any other overwintered version is a `DataError`;
every other coin gets the in-src `Bip143`. -/
def init_hash143 (coin : CoinInfo) (tx : SignTx) : Except Err Hash143 :=
  if !BITCOIN_ONLY && coin.overwintered then
    if tx.version = 3 then
      .ok (.zip ⟨(if tx.branch_id = 0 then 0x5BA81B19 else tx.branch_id), [], [], []⟩)
    else if tx.version = 4 then
      .ok (.zip ⟨(if tx.branch_id = 0 then 0x76B809BB else tx.branch_id), [], [], []⟩)
    else .error .DataError
  else .ok (.bip143 Bip143.init)

/-- signing.py lines 162-163: `self.hash143.add_prevouts(txi)` followed by
`self.hash143.add_sequence(txi)`.  The in-src `Bip143` (segwit_bip143.py)
defines neither method -- it has `add_input` instead -- so for a session whose
hasher is `Bip143` the attribute lookup raises `AttributeError`, modelled as
`InternalError`.  The spec-modelled Zcash hashers implement both (spec
section 9), and `DecredPrefixHasher` implements them in src (decred.py lines
42-46, `add_sequence` a no-op). -/
def Hash143.add_prevouts_sequence : Hash143 → TxInputType → Except Err Hash143
  | .bip143 _, _ => .error .InternalError
  | .zip z, txi => .ok (.zip ((z.add_prevouts txi).add_sequence txi))
  | .decred h, txi => .ok (.decred (decred_add_prevouts h txi))

/-- `self.hash143.preimage_hash(...)` (signing.py lines 366-372), dispatched
on the session hasher.  `DecredPrefixHasher` defines no `preimage_hash`
(`Decred.phase2` never requests one), so there the lookup too would be an
`AttributeError`. -/
def Hash143.preimage_hash (h : Hash143) (H : Bytes → Bytes) (coin : CoinInfo)
    (tx : SignTx) (txi : TxInputType) (pubkeyhash : Bytes) (sighash : Nat) :
    Except Err Bytes :=
  match h with
  | .bip143 b => b.preimage_hash H coin tx txi pubkeyhash sighash
  | .zip z => z.preimage_hash H coin tx txi pubkeyhash sighash
  | .decred _ => .error .InternalError

/-! ### Phase-2 serialization: header, witness section, trailer (`signing.py`) -/

/-- `Bitcoin.write_tx_header` (signing.py lines 563-575).  `segwit` is the
per-index boolean map collected in phase 1 (a list indexed by input
position); the marker and flag are emitted iff some input is segwit. -/
def write_tx_header (coin : CoinInfo) (tx : SignTx) (segwit : List Bool) : Bytes :=
  (if !BITCOIN_ONLY && coin.overwintered then
     write_uint32 (Nat.lor tx.version OVERWINTERED) ++ write_uint32 tx.version_group_id
   else
     write_uint32 tx.version ++
     (if !BITCOIN_ONLY && coin.timestamp then write_uint32 tx.timestamp else [])) ++
  (if segwit.contains true then write_varint 0x00 ++ write_varint 0x01 else []) ++
  write_varint tx.inputs_count

/-- One iteration of the witness-emission loop (signing.py lines 246-261).
State is (flushed fragments, current `serialized_tx` buffer): a segwit
position flushes the buffer (the input re-request transmits it) and replaces
it with the witness; a non-segwit position appends a single zero byte when
any input is segwit, and nothing otherwise. -/
def phase2_witness_step (segwit : List Bool) (witness : Nat → Bytes)
    (st : List Bytes × Bytes) (i : Nat) : List Bytes × Bytes :=
  if segwit.getD i false then (st.1 ++ [st.2], witness i)
  else if segwit.contains true then (st.1, st.2 ++ [0])
  else st

/-- The witness-emission loop over all input positions (signing.py lines
246-261), starting from the buffer left by the output-serialization stage. -/
def phase2_witness_loop (n : Nat) (segwit : List Bool) (witness : Nat → Bytes)
    (buf0 : Bytes) : List Bytes × Bytes :=
  (List.range n).foldl (phase2_witness_step segwit witness) ([], buf0)

/-- The bytes appended after the witness section (signing.py lines 263-283):
locktime, and for overwintered coins the version-dependent Zcash trailer;
any other overwintered version is fatal. -/
def phase2_trailer (coin : CoinInfo) (tx : SignTx) : Except Err Bytes :=
  let base := write_uint32 tx.lock_time
  if !BITCOIN_ONLY && coin.overwintered then
    if tx.version = 3 then
      .ok (base ++ write_uint32 tx.expiry ++ write_varint 0)
    else if tx.version = 4 then
      .ok (base ++ write_uint32 tx.expiry ++ write_uint64 0 ++
           write_varint 0 ++ write_varint 0 ++ write_varint 0)
    else .error .DataError
  else .ok base

/-! ### Previous-transaction value verification (signing.py lines 489-550) -/

/-- Metadata of a previous transaction (`helpers.request_tx_meta` reply). -/
structure PrevTxMeta where
  version : Nat
  inputs_cnt : Nat
  outputs_cnt : Nat
  lock_time : Nat
  timestamp : Nat
  version_group_id : Nat
  extra_data_len : Nat
deriving DecidableEq, Repr

/-- The byte stream hashed while re-deriving a previous transaction's id
(signing.py lines 500-540): header (with Zcash or timestamp variants),
inputs, outputs, locktime and, when the coin has it, the extra data.  The
1024-byte chunking of extra data concatenates back to the full run. -/
def prevtx_hash_stream (coin : CoinInfo) (meta : PrevTxMeta) (ins : List TxInputType)
    (outs : List TxOutputBinType) (extra : Bytes) : Bytes :=
  (if !BITCOIN_ONLY && coin.overwintered then
     write_uint32 (Nat.lor meta.version OVERWINTERED) ++ write_uint32 meta.version_group_id
   else
     write_uint32 meta.version ++
     (if !BITCOIN_ONLY && coin.timestamp then write_uint32 meta.timestamp else [])) ++
  write_varint meta.inputs_cnt ++ (ins.map write_tx_input).flatten ++
  write_varint meta.outputs_cnt ++ (outs.map write_tx_output).flatten ++
  write_uint32 meta.lock_time ++
  (if !BITCOIN_ONLY && coin.extra_data then extra else [])

/-- The output-amount accumulation of the prev-tx loop (signing.py lines
521-528): only the output at `prev_index` contributes. -/
def prevtx_total (prev_index : Nat) : Nat → List TxOutputBinType → Nat
  | _, [] => 0
  | o, txo :: rest =>
    (if o = prev_index then txo.amount else 0) + prevtx_total prev_index (o + 1) rest

/-- `Bitcoin.get_prevtx_output_value` (signing.py lines 489-550).  The host
streams `meta`, the input list, the output list and the extra data; the
function fails unless the re-derived id matches the claimed `prev_hash`, and
returns the amount of the output at `prev_index`. -/
def get_prevtx_output_value (H : Bytes → Bytes) (coin : CoinInfo) (prev_hash : Bytes)
    (prev_index : Nat) (meta : PrevTxMeta) (ins : List TxInputType)
    (outs : List TxOutputBinType) (extra : Bytes) : Except Err Nat :=
  if meta.outputs_cnt ≤ prev_index then .error .ProcessError
  else
    let total_out := prevtx_total prev_index 0 outs
    if get_tx_hash H (prevtx_hash_stream coin meta ins outs extra)
        coin.sign_hash_double true ≠ prev_hash then
      .error .ProcessError
    else .ok total_out

/-! ### Phase 1: input processing (signing.py lines 159-206) -/

/-- Running signer state touched by `phase1_process_input`. -/
structure InLoopState where
  wallet_path : Option (List Nat)
  fp : MultisigFingerprint
  segwit : List Bool
  bip143_in : Nat
  total_in : Nat
  h_first : Bytes
  hash143 : Hash143
deriving DecidableEq

/-- `Bitcoin.phase1_process_input` (signing.py lines 159-206).  `valid_path`
abstracts `addresses.validate_full_path` and `foreign_ok` the user's answer
to `confirm_foreign_address` (both out of scope per spec section 1);
`prev_value` is the amount obtained through the prev-tx sub-protocol
(`get_prevtx_output_value`, modelled separately) for legacy inputs.  Lines
160-161 update the wallet path and `h_first`; lines 162-163 then invoke
`hash143.add_prevouts`/`add_sequence`, which raise `AttributeError` when the
session hasher is the in-src `Bip143` (see `Hash143.add_prevouts_sequence`);
the unhandled error kills the session, so the preceding in-place updates are
discarded with it and the dispatch is factored first. -/
def phase1_process_input (coin : CoinInfo) (valid_path : TxInputType → Bool)
    (foreign_ok : TxInputType → Bool) (prev_value : Nat) (txi : TxInputType)
    (st : InLoopState) : Except Err InLoopState :=
  match st.hash143.add_prevouts_sequence txi with
  | .error e => .error e
  | .ok h143 =>
  let st := { st with
    wallet_path := input_extract_wallet_path txi st.wallet_path,
    h_first := st.h_first ++ write_tx_input_check txi,
    hash143 := h143 }
  if valid_path txi = false ∧ foreign_ok txi = false then .error .ActionCancelled
  else
    let st := { st with fp :=
      match txi.multisig with
      | some ms => st.fp.add ms
      | none => { st.fp with mismatch := true } }
    if input_is_segwit txi then
      if coin.segwit = false then .error .DataError
      else if optAmount txi.amount = 0 then .error .DataError
      else .ok { st with segwit := st.segwit ++ [true],
                         bip143_in := st.bip143_in + optAmount txi.amount,
                         total_in := st.total_in + optAmount txi.amount }
    else if txi.script_type = .SPENDADDRESS ∨ txi.script_type = .SPENDMULTISIG then
      if !BITCOIN_ONLY && (coin.force_bip143 || coin.overwintered) then
        if optAmount txi.amount = 0 then .error .DataError
        else .ok { st with segwit := st.segwit ++ [false],
                           bip143_in := st.bip143_in + optAmount txi.amount,
                           total_in := st.total_in + optAmount txi.amount }
      else
        .ok { st with segwit := st.segwit ++ [false],
                      total_in := st.total_in + prev_value }
    else .error .DataError

/-- The phase-1 input loop (signing.py lines 121-126); `prevs i` is the
verified prev-tx amount for input `i`. -/
def phase1_inputs_loop (coin : CoinInfo) (valid_path : TxInputType → Bool)
    (foreign_ok : TxInputType → Bool) (prevs : Nat → Nat) :
    Nat → InLoopState → List TxInputType → Except Err InLoopState
  | _, st, [] => .ok st
  | i, st, txi :: rest =>
    match phase1_process_input coin valid_path foreign_ok (prevs i) txi st with
    | .error e => .error e
    | .ok st1 => phase1_inputs_loop coin valid_path foreign_ok prevs (i + 1) st1 rest

/-- The amount an input contributes to `bip143_in` in phase 1. -/
def bip143_amount (coin : CoinInfo) (txi : TxInputType) : Nat :=
  if input_is_segwit txi then optAmount txi.amount
  else if !BITCOIN_ONLY && (coin.force_bip143 || coin.overwintered) then
    optAmount txi.amount
  else 0

/-! ### Phase 1: output confirmation and change detection
(signing.py lines 128-135, 208-219, 639-649) -/

/-- Modelled from the spec: `helpers.CHANGE_OUTPUT_SCRIPT_TYPES`, the
change-capable output script types (spec section 3). -/
def CHANGE_OUTPUT_SCRIPT_TYPES : List OutputScriptType :=
  [.PAYTOADDRESS, .PAYTOMULTISIG, .PAYTOWITNESS, .PAYTOP2SHWITNESS]

/-- `Bitcoin.output_is_change` (signing.py lines 639-649).  Python's
`o.address_n[-2]` raises `IndexError` on a path shorter than two levels
(reachable only with an empty wallet path), modelled as `InternalError`. -/
def output_is_change (wallet_path : Option (List Nat)) (fp : MultisigFingerprint)
    (o : TxOutputType) : Except Err Bool :=
  if o.script_type ∉ CHANGE_OUTPUT_SCRIPT_TYPES then .ok false
  else if (match o.multisig with
           | some ms => !fp.matches ms
           | none => false) then .ok false
  else
    match wallet_path with
    | none => .ok false
    | some wp =>
      if wp ≠ o.address_n.take (o.address_n.length - BIP32_WALLET_DEPTH) then .ok false
      else if o.address_n.length < 2 then .error .InternalError
      else .ok (decide (o.address_n.getD (o.address_n.length - 2) 0 ≤ BIP32_CHANGE_CHAIN ∧
                        o.address_n.getD (o.address_n.length - 1) 0 ≤ BIP32_MAX_LAST_ELEMENT))

/-- Running signer state touched by the phase-1 output loop, instrumented
with the observable confirmation trace: `accepted` records outputs taken as
silent change, `confirmed` records outputs put through `confirm_output`. -/
structure OutLoopState where
  change_out : Nat
  total_out : Nat
  h_first : Bytes
  hash143 : Bip143
  accepted : List (Nat × TxOutputType)
  confirmed : List (Nat × TxOutputType)
deriving DecidableEq

/-- `Bitcoin.phase1_confirm_output` (signing.py lines 208-219).  `user i`
is the answer of `helpers.confirm_output` for output `i` (out of scope). -/
def phase1_confirm_output (wallet_path : Option (List Nat)) (fp : MultisigFingerprint)
    (user : Nat → Bool) (i : Nat) (txo : TxOutputType) (txo_bin : TxOutputBinType)
    (st : OutLoopState) : Except Err OutLoopState :=
  match (if st.change_out = 0 then output_is_change wallet_path fp txo
         else .ok false) with
  | .error e => .error e
  | .ok silent =>
    match (if silent then
             Except.ok { st with change_out := txo.amount,
                                 accepted := st.accepted ++ [(i, txo)] }
           else if user i then
             Except.ok { st with confirmed := st.confirmed ++ [(i, txo)] }
           else Except.error Err.ActionCancelled) with
    | .error e => .error e
    | .ok st1 =>
      .ok { st1 with h_first := st1.h_first ++ write_tx_output txo_bin,
                     hash143 := st1.hash143.add_output txo_bin,
                     total_out := st1.total_out + txo_bin.amount }

/-- The phase-1 output loop (signing.py lines 128-135); `derive` abstracts
`output_derive_script` (address decoding is out of scope per spec
section 1). -/
def phase1_outputs_loop (wallet_path : Option (List Nat)) (fp : MultisigFingerprint)
    (user : Nat → Bool) (derive : TxOutputType → Bytes) :
    Nat → OutLoopState → List TxOutputType → Except Err OutLoopState
  | _, st, [] => .ok st
  | i, st, txo :: rest =>
    match phase1_confirm_output wallet_path fp user i txo ⟨txo.amount, derive txo, none⟩ st with
    | .error e => .error e
    | .ok st1 => phase1_outputs_loop wallet_path fp user derive (i + 1) st1 rest

/-! ### Phase 1: fee checks and confirmations (signing.py lines 137-157) -/

/-- User-visible confirmation requests at the end of phase 1. -/
inductive ConfirmEvent where
  | FeeOverThreshold (fee : Int)
  | NondefaultLocktime (lock_time : Nat)
  | Total (spending : Int) (fee : Int)
deriving DecidableEq, Repr

/-- The tail of `Bitcoin.phase1` (signing.py lines 137-157): negative-fee
check, fee threshold, locktime and total confirmations.  Returns the trace
of confirmation dialogs shown before the outcome, and the fatal error if
any.  Python's float arithmetic in the threshold comparison is modelled
exactly over the rationals. -/
def phase1_fee_tail (coin : CoinInfo) (tx : SignTx) (total_in total_out change_out : Nat)
    (weight_total : Nat) (user : ConfirmEvent → Bool) : List ConfirmEvent × Option Err :=
  let fee : Int := (total_in : Int) - (total_out : Int)
  if (if !BITCOIN_ONLY && coin.negative_fee then false else decide (fee < 0)) then
    ([], some .NotEnoughFunds)
  else
    let threshold : ℚ := ((coin.maxfee_kb : ℚ) / 1000) * ((weight_total : ℚ) / 4)
    let e1 : List ConfirmEvent :=
      if (fee : ℚ) > threshold then [.FeeOverThreshold fee] else []
    if (fee : ℚ) > threshold ∧ user (.FeeOverThreshold fee) = false then
      (e1, some .ActionCancelled)
    else
      let e2 := e1 ++ (if 0 < tx.lock_time then [.NondefaultLocktime tx.lock_time] else [])
      if 0 < tx.lock_time ∧ user (.NondefaultLocktime tx.lock_time) = false then
        (e2, some .ActionCancelled)
      else
        let tev := ConfirmEvent.Total ((total_in : Int) - (change_out : Int)) fee
        if user tev = false then (e2 ++ [tev], some .ActionCancelled)
        else (e2 ++ [tev], none)

/-! ### Phase 2: legacy sighash and tamper check (signing.py lines 392-473) -/

/-- Accumulator of the legacy signing loop: the `h_second` control stream,
the `h_sign` preimage stream, and the signing input together with its public
key once the loop has passed it. -/
structure LegacyLoopAcc where
  h_second : Bytes
  h_sign : Bytes
  signCtx : Option (TxInputType × Bytes)
deriving DecidableEq

/-- One iteration of the legacy signing input loop (signing.py lines
404-431).  At the signing index the `script_sig` becomes the previous
output script (p2pkh) or the multisig redeem script; `SPENDMULTISIG` with an
absent descriptor hits `txi_sign.multisig.m` on `None` (line 419), an
unhandled Python attribute error. -/
def legacy_input_step (pubkeyOf : List Nat → Bytes) (hashPub : Bytes → Bytes)
    (wallet_path : Option (List Nat)) (fp : MultisigFingerprint) (i_sign i : Nat)
    (txi : TxInputType) (acc : LegacyLoopAcc) : Except Err LegacyLoopAcc :=
  match input_check_wallet_path txi wallet_path with
  | .error e => .error e
  | .ok _ =>
    let acc := { acc with h_second := acc.h_second ++ write_tx_input_check txi }
    if i = i_sign then
      match input_check_multisig_fingerprint txi fp with
      | .error e => .error e
      | .ok _ =>
        let pub := pubkeyOf txi.address_n
        match (match txi.script_type with
               | .SPENDMULTISIG =>
                 match txi.multisig with
                 | none => Except.error Err.InternalError
                 | some ms =>
                   Except.ok (output_script_multisig (multisig_get_pubkeys ms) ms.m)
               | .SPENDADDRESS => Except.ok (output_script_p2pkh (hashPub pub))
               | _ => Except.error Err.ProcessError) with
        | .error e => .error e
        | .ok ss =>
          .ok { acc with
            signCtx := some ({ txi with script_sig := ss }, pub),
            h_sign := acc.h_sign ++ write_tx_input { txi with script_sig := ss } }
    else
      .ok { acc with h_sign := acc.h_sign ++ write_tx_input { txi with script_sig := [] } }

/-- The legacy signing input loop (signing.py lines 404-431). -/
def legacy_inputs_loop (pubkeyOf : List Nat → Bytes) (hashPub : Bytes → Bytes)
    (wallet_path : Option (List Nat)) (fp : MultisigFingerprint) (i_sign : Nat) :
    Nat → LegacyLoopAcc → List TxInputType → Except Err LegacyLoopAcc
  | _, acc, [] => .ok acc
  | i, acc, txi :: rest =>
    match legacy_input_step pubkeyOf hashPub wallet_path fp i_sign i txi acc with
    | .error e => .error e
    | .ok acc1 => legacy_inputs_loop pubkeyOf hashPub wallet_path fp i_sign (i + 1) acc1 rest

/-- `Bitcoin.phase2_sign_legacy_input` (signing.py lines 392-473), up to the
digest handed to `ecdsa_sign`.  `h_first` is the stream accumulated in phase
1; `I2`, `O2` are the inputs and derived binary outputs the host streams in
phase 2.  The control digests are compared before any signature is
computed; a mismatch is `ProcessError` (lines 447-451). -/
def phase2_sign_legacy_input (H : Bytes → Bytes) (pubkeyOf : List Nat → Bytes)
    (hashPub : Bytes → Bytes) (coin : CoinInfo) (tx : SignTx)
    (wallet_path : Option (List Nat)) (fp : MultisigFingerprint) (h_first : Bytes)
    (i_sign : Nat) (I2 : List TxInputType) (O2 : List TxOutputBinType) :
    Except Err Bytes :=
  let h_sign0 :=
    write_uint32 tx.version ++
    (if !BITCOIN_ONLY && coin.timestamp then write_uint32 tx.timestamp else []) ++
    write_varint tx.inputs_count
  match legacy_inputs_loop pubkeyOf hashPub wallet_path fp i_sign 0 ⟨[], h_sign0, none⟩ I2 with
  | .error e => .error e
  | .ok acc =>
    let outs := (O2.map write_tx_output).flatten
    let h_sign := acc.h_sign ++ write_varint tx.outputs_count ++ outs ++
                  write_uint32 tx.lock_time ++ write_uint32 (get_hash_type coin)
    let h_second := acc.h_second ++ outs
    if get_tx_hash H h_first false false ≠ get_tx_hash H h_second false false then
      .error .ProcessError
    else
      match acc.signCtx with
      | none => .error .InternalError
      | some (txi_sign, pub) =>
        match (match txi_sign.multisig with
               | some ms => multisig_pubkey_index ms pub
               | none => Except.ok 0) with
        | .error e => .error e
        | .ok _ => .ok (get_tx_hash H h_sign coin.sign_hash_double false)

/-! ### Phase 2: segwit witness signing (signing.py lines 311-345) -/

/-- `Bitcoin.phase2_sign_segwit_input` (signing.py lines 311-345), up to the
digest handed to `ecdsa_sign`; returns the digest and the decremented
`bip143_in` budget.  A segwit input re-streamed without an amount hits
`None > int`, an unhandled Python type error. -/
def phase2_sign_segwit_input (H : Bytes → Bytes) (pubkeyOf : List Nat → Bytes)
    (hashPub : Bytes → Bytes) (coin : CoinInfo) (tx : SignTx)
    (wallet_path : Option (List Nat)) (fp : MultisigFingerprint) (b : Bip143)
    (bip143_in : Nat) (txi : TxInputType) : Except Err (Bytes × Nat) :=
  match input_check_wallet_path txi wallet_path with
  | .error e => .error e
  | .ok _ =>
  match input_check_multisig_fingerprint txi fp with
  | .error e => .error e
  | .ok _ =>
  if input_is_segwit txi = false then .error .ProcessError
  else
    match txi.amount with
    | none => .error .InternalError
    | some am =>
      if bip143_in < am then .error .ProcessError
      else
        match b.preimage_hash H coin tx txi (hashPub (pubkeyOf txi.address_n))
            (get_hash_type coin) with
        | .error e => .error e
        | .ok digest =>
          match (match txi.multisig with
                 | some ms => multisig_pubkey_index ms (pubkeyOf txi.address_n)
                 | none => Except.ok 0) with
          | .error e => .error e
          | .ok _ => .ok (digest, bip143_in - am)

/-- The witness-signing pass of `Bitcoin.phase2` (signing.py lines 244-253):
each position whose phase-1 classification was segwit is signed with the
current `bip143_in` budget; others are skipped here.  Returns the signed
digests with their indices and the final budget. -/
def phase2_witness_sign_loop (H : Bytes → Bytes) (pubkeyOf : List Nat → Bytes)
    (hashPub : Bytes → Bytes) (coin : CoinInfo) (tx : SignTx)
    (wallet_path : Option (List Nat)) (fp : MultisigFingerprint) (b : Bip143)
    (segwit : List Bool) :
    Nat → Nat → List TxInputType → Except Err (List (Nat × Bytes) × Nat)
  | _, bip, [] => .ok ([], bip)
  | i, bip, txi :: rest =>
    if segwit.getD i false then
      match phase2_sign_segwit_input H pubkeyOf hashPub coin tx wallet_path fp b bip txi with
      | .error e => .error e
      | .ok (digest, bip1) =>
        match phase2_witness_sign_loop H pubkeyOf hashPub coin tx wallet_path fp b segwit
            (i + 1) bip1 rest with
        | .error e => .error e
        | .ok (sigs, bipf) => .ok ((i, digest) :: sigs, bipf)
    else
      phase2_witness_sign_loop H pubkeyOf hashPub coin tx wallet_path fp b segwit
        (i + 1) bip rest

/-- The sum of phase-2 amounts over the positions signed by the witness
pass, starting at position `i`. -/
def segwit_signed_sum (segwit : List Bool) : Nat → List TxInputType → Nat
  | _, [] => 0
  | i, txi :: rest =>
    (if segwit.getD i false then optAmount txi.amount else 0) +
    segwit_signed_sum segwit (i + 1) rest

/-! ### Phase 2: BIP-143/ZIP-243 in-place signing (signing.py lines 347-390) -/

/-- `Bitcoin.phase2_sign_bip143_input` (signing.py lines 347-390), up to the
digest handed to `ecdsa_sign`; returns the digest and the decremented
`bip143_in` budget.  A non-BIP-143 script type or an amount exceeding the
remaining budget is `ProcessError` (lines 353-361); a BIP-143 input
re-streamed without an amount hits `None > int`, an unhandled Python type
error. -/
def phase2_sign_bip143_input (H : Bytes → Bytes) (pubkeyOf : List Nat → Bytes)
    (hashPub : Bytes → Bytes) (coin : CoinInfo) (tx : SignTx)
    (wallet_path : Option (List Nat)) (fp : MultisigFingerprint) (h143 : Hash143)
    (bip143_in : Nat) (txi : TxInputType) : Except Err (Bytes × Nat) :=
  match input_check_wallet_path txi wallet_path with
  | .error e => .error e
  | .ok _ =>
  match input_check_multisig_fingerprint txi fp with
  | .error e => .error e
  | .ok _ =>
  if ¬(txi.script_type = .SPENDADDRESS ∨ txi.script_type = .SPENDMULTISIG) then
    .error .ProcessError
  else
    match txi.amount with
    | none => .error .InternalError
    | some am =>
      if bip143_in < am then .error .ProcessError
      else
        match h143.preimage_hash H coin tx txi (hashPub (pubkeyOf txi.address_n))
            (get_hash_type coin) with
        | .error e => .error e
        | .ok digest =>
          match (match txi.multisig with
                 | some ms => multisig_pubkey_index ms (pubkeyOf txi.address_n)
                 | none => Except.ok 0) with
          | .error e => .error e
          | .ok _ => .ok (digest, bip143_in - am)

/-- The first input pass of `Bitcoin.phase2` (signing.py lines 225-234) for
a session in which phase 1 classified no input as segwit and the coin
forces BIP-143 hashing (`force_bip143` or `overwintered`): every position
goes through `phase2_sign_bip143_input` with the running budget.  Returns
the signed digests with their indices and the final budget. -/
def phase2_bip143_sign_loop (H : Bytes → Bytes) (pubkeyOf : List Nat → Bytes)
    (hashPub : Bytes → Bytes) (coin : CoinInfo) (tx : SignTx)
    (wallet_path : Option (List Nat)) (fp : MultisigFingerprint) (h143 : Hash143) :
    Nat → Nat → List TxInputType → Except Err (List (Nat × Bytes) × Nat)
  | _, bip, [] => .ok ([], bip)
  | i, bip, txi :: rest =>
    match phase2_sign_bip143_input H pubkeyOf hashPub coin tx wallet_path fp h143 bip txi with
    | .error e => .error e
    | .ok (digest, bip1) =>
      match phase2_bip143_sign_loop H pubkeyOf hashPub coin tx wallet_path fp h143
          (i + 1) bip1 rest with
      | .error e => .error e
      | .ok (sigs, bipf) => .ok ((i, digest) :: sigs, bipf)

/-! ### Concrete fixtures for witnesses and counterexamples -/

/-- A Bitcoin-like segwit coin. -/
def exCoin : CoinInfo := ⟨true, true, false, false, false, false, false, none, 2000⟩

/-- A Zcash-like overwintered coin. -/
def exCoinZcash : CoinInfo := ⟨true, false, false, true, false, true, false, none, 1000⟩

/-- An overwintered coin permitting negative fees (reward transactions). -/
def exCoinNegFee : CoinInfo := ⟨true, false, false, true, false, true, true, none, 1000⟩

/-- A two-input, one-output version-1 header. -/
def exTx : SignTx := ⟨1, 2, 1, 0, 0, 0, 0, 0⟩

/-- A one-input, one-output version-1 header. -/
def exTx1 : SignTx := ⟨1, 1, 1, 0, 0, 0, 0, 0⟩

/-- A version-3 overwintered header with a nonzero expiry. -/
def exTxV3 : SignTx := ⟨3, 1, 1, 0, 7, 0, 0x03C48270, 0⟩

/-- A version-4 overwintered header with a nonzero expiry. -/
def exTxV4 : SignTx := ⟨4, 1, 1, 0, 7, 0, 0x892F2085, 0⟩

/-- A 32-byte previous-transaction hash. -/
def exHash32 : Bytes := List.replicate 32 1

/-- A legacy input spending through a five-level BIP-32 path. -/
def c1_input1 : TxInputType :=
  ⟨[44, 0, 0, 0, 0], exHash32, 0, .SPENDADDRESS, 4294967295, some 5, none, [], 0⟩

/-- The same input re-streamed in phase 2 with its script type switched to
multisig while no multisig descriptor is present. -/
def c1_input2 : TxInputType :=
  { c1_input1 with script_type := .SPENDMULTISIG }

/-- The same input re-streamed in phase 2 with an inflated amount. -/
def c1_input3 : TxInputType :=
  { c1_input1 with amount := some 6 }

/-- A small binary output. -/
def c1_output : TxOutputBinType := ⟨4, [0x51], none⟩

/-- A two-input, one-output Sapling (version-4) overwintered header. -/
def exTxZ2 : SignTx := ⟨4, 2, 1, 0, 7, 0, 0x892F2085, 0x76B809BB⟩

/-- First phase-1 BIP-143-forced input on the overwintered coin, declared
amount 5. -/
def c2_zin1a : TxInputType :=
  ⟨[44, 133, 0, 0, 0], exHash32, 0, .SPENDADDRESS, 4294967295, some 5, none, [], 0⟩

/-- Second phase-1 BIP-143-forced input, declared amount 5. -/
def c2_zin1b : TxInputType :=
  ⟨[44, 133, 0, 0, 1], exHash32, 1, .SPENDADDRESS, 4294967295, some 5, none, [], 0⟩

/-- First phase-2 input, inflated to amount 9. -/
def c2_zin2a : TxInputType := { c2_zin1a with amount := some 9 }

/-- Second phase-2 input, deflated to amount 1. -/
def c2_zin2b : TxInputType := { c2_zin1b with amount := some 1 }

/-- A change-form output with amount 0. -/
def c3_out0 : TxOutputType := ⟨[44, 0, 0, 0, 0], 0, .PAYTOADDRESS, none⟩

/-- A change-form output with amount 5. -/
def c3_out1 : TxOutputType := ⟨[44, 0, 0, 1, 2], 5, .PAYTOADDRESS, none⟩

/-- An input whose BIP-32 path is a single level, so stripping the final two
levels leaves nothing and the wallet path becomes absent. -/
def c10_in_short : TxInputType :=
  ⟨[0], exHash32, 0, .SPENDADDRESS, 0, none, none, [], 0⟩

/-- Metadata of a tiny previous transaction. -/
def c4_meta : PrevTxMeta := ⟨1, 1, 1, 0, 0, 0, 0⟩

/-- The single input of the previous transaction. -/
def c4_in : TxInputType :=
  ⟨[], exHash32, 0, .SPENDADDRESS, 4294967295, none, none, [0x6a], 0⟩

/-- The single output of the previous transaction, amount 4. -/
def c4_out : TxOutputBinType := ⟨4, [0x51], none⟩

/-- A native segwit input. -/
def c5_in_segwit : TxInputType :=
  ⟨[84, 0, 0, 0, 0], exHash32, 0, .SPENDWITNESS, 4294967295, some 7, none, [], 0⟩

/-- A legacy input. -/
def c5_in_legacy : TxInputType :=
  ⟨[44, 0, 0, 0, 1], exHash32, 1, .SPENDADDRESS, 4294967295, none, none, [], 0⟩

/-- A native segwit input spending 7 through a five-level path. -/
def c7_input : TxInputType :=
  ⟨[84, 0, 0, 0, 0], exHash32, 0, .SPENDWITNESS, 4294967295, some 7, none, [], 0⟩

/-- A binary output, amount 6. -/
def c7_out : TxOutputBinType := ⟨6, [0x52], none⟩

/-- A Decred coin: single BLAKE-256 hashing. -/
def exCoinDecred : CoinInfo :=
  ⟨false, false, false, false, false, false, false, none, 100000⟩

/-- A Decred p2pkh input. -/
def c8_input : TxInputType :=
  ⟨[42, 0, 0, 0, 0], exHash32, 0, .SPENDADDRESS, 4294967295, none, none, [], 0⟩

/-- A Decred binary output carrying script version 0. -/
def c8_out : TxOutputBinType := ⟨9, [0x53], some 0⟩

/-! ## Theorems -/

theorem read_write_uint16 (n : Nat) (h : n < 2 ^ 16) (r : Bytes) :
    read_uint16 (write_uint16 n ++ r) = some (n, r) := by
  simp only [write_uint16, List.cons_append, List.nil_append, read_uint16]
  congr 1
  congr 1
  omega

theorem read_write_uint32 (n : Nat) (h : n < 2 ^ 32) (r : Bytes) :
    read_uint32 (write_uint32 n ++ r) = some (n, r) := by
  simp only [write_uint32, List.cons_append, List.nil_append, read_uint32]
  congr 1
  congr 1
  omega

theorem read_write_uint64 (n : Nat) (h : n < 2 ^ 64) (r : Bytes) :
    read_uint64 (write_uint64 n ++ r) = some (n, r) := by
  simp only [write_uint64, List.cons_append, List.nil_append, read_uint64]
  congr 1
  congr 1
  omega

theorem read_write_varint (n : Nat) (h : n < 2 ^ 64) (r : Bytes) :
    read_varint (write_varint n ++ r) = some (n, r) := by
  unfold write_varint
  by_cases h1 : n < 0xfd
  · simp [h1, read_varint]
  · by_cases h2 : n ≤ 0xffff
    · simp only [h1, if_false, h2, if_true, List.cons_append, read_varint]
      norm_num
      exact read_write_uint16 n (by omega) r
    · by_cases h3 : n ≤ 0xffffffff
      · simp only [h1, if_false, h2, if_false, h3, if_true, List.cons_append, read_varint]
        norm_num
        exact read_write_uint32 n (by omega) r
      · simp only [h1, if_false, h2, if_false, h3, if_false, List.cons_append, read_varint]
        norm_num
        exact read_write_uint64 n h r

theorem readBytes_append (b r : Bytes) :
    readBytes b.length (b ++ r) = some (b, r) := by
  induction b with
  | nil => simp [readBytes]
  | cons x xs ih => simp [readBytes, ih]

theorem readBytes_append_of_length {k : Nat} (b r : Bytes) (h : b.length = k) :
    readBytes k (b ++ r) = some (b, r) := by
  subst h; exact readBytes_append b r

theorem readU32s_append (l : List Nat) (hl : ∀ a ∈ l, a < 2 ^ 32) (r : Bytes) :
    readU32s l.length ((l.map write_uint32).flatten ++ r) = some (l, r) := by
  induction l with
  | nil => simp [readU32s]
  | cons x xs ih =>
    simp only [List.length_cons, List.map_cons, List.flatten_cons, List.append_assoc, readU32s]
    rw [read_write_uint32 x (hl x (by simp)) _]
    dsimp only
    rw [ih (fun a ha => hl a (by simp [ha]))]

theorem InputScriptType.code_inj :
    ∀ a b : InputScriptType, a.code = b.code → a = b := by decide

theorem script_code_lt (t : InputScriptType) : t.code < 2 ^ 32 := by
  cases t <;> simp [InputScriptType.code]

theorem readInputCheck_write (txi : TxInputType) (hwf : txi.wf) (r : Bytes) :
    readInputCheck (write_tx_input_check txi ++ r) = some (inputCheckView txi, r) := by
  obtain ⟨h1, h2, h3, h4, h5, h6⟩ := hwf
  unfold write_tx_input_check readInputCheck
  simp only [List.append_assoc]
  rw [read_write_varint _ h1]
  dsimp only
  rw [readU32s_append _ h2]
  dsimp only
  rw [readBytes_append_of_length _ _ (by simp [write_bytes_reversed, h3])]
  dsimp only
  rw [read_write_uint32 _ h4]
  dsimp only
  rw [read_write_uint32 _ (script_code_lt _)]
  dsimp only
  rw [read_write_uint32 _ h5]
  dsimp only
  rw [read_write_uint64 _ h6]
  simp [inputCheckView, write_bytes_reversed]

theorem readInputChecks_write (l : List TxInputType) (hwf : ∀ txi ∈ l, txi.wf)
    (r : Bytes) :
    readInputChecks l.length ((l.map write_tx_input_check).flatten ++ r) =
      some (l.map inputCheckView, r) := by
  induction l with
  | nil => simp [readInputChecks]
  | cons x xs ih =>
    simp only [List.length_cons, List.map_cons, List.flatten_cons, List.append_assoc,
      readInputChecks]
    rw [readInputCheck_write x (hwf x (by simp))]
    dsimp only
    rw [ih (fun t ht => hwf t (by simp [ht]))]

theorem readOutput_write (o : TxOutputBinType) (hwf : o.wf) (r : Bytes) :
    readOutput (write_tx_output o ++ r) = some (outputView o, r) := by
  obtain ⟨h1, h2, h3⟩ := hwf
  unfold write_tx_output readOutput write_bytes_prefixed
  rw [h3]
  simp only [List.append_assoc, List.nil_append]
  rw [read_write_uint64 _ h1]
  dsimp only
  rw [read_write_varint _ h2]
  dsimp only
  rw [readBytes_append]
  simp [outputView]

theorem readOutputs_write (l : List TxOutputBinType) (hwf : ∀ o ∈ l, o.wf)
    (r : Bytes) :
    readOutputs l.length ((l.map write_tx_output).flatten ++ r) =
      some (l.map outputView, r) := by
  induction l with
  | nil => simp [readOutputs]
  | cons x xs ih =>
    simp only [List.length_cons, List.map_cons, List.flatten_cons, List.append_assoc,
      readOutputs]
    rw [readOutput_write x (hwf x (by simp))]
    dsimp only
    rw [ih (fun t ht => hwf t (by simp [ht]))]

/-- Streams of well-formed inputs/outputs are injective record-wise: equal
`h_first`-style streams with equal record counts force equal committed
fields. -/
theorem h_first_stream_inj (I1 I2 : List TxInputType) (O1 O2 : List TxOutputBinType)
    (hI : I1.length = I2.length) (hO : O1.length = O2.length)
    (hwI1 : ∀ t ∈ I1, t.wf) (hwI2 : ∀ t ∈ I2, t.wf)
    (hwO1 : ∀ o ∈ O1, o.wf) (hwO2 : ∀ o ∈ O2, o.wf)
    (h : h_first_stream I1 O1 = h_first_stream I2 O2) :
    I1.map inputCheckView = I2.map inputCheckView ∧
      O1.map outputView = O2.map outputView := by
  unfold h_first_stream at h
  have d1 := readInputChecks_write I1 hwI1 (O1.map write_tx_output).flatten
  have d2 := readInputChecks_write I2 hwI2 (O2.map write_tx_output).flatten
  rw [h, hI] at d1
  have hd := d2.symm.trans d1
  simp only [Option.some.injEq, Prod.mk.injEq] at hd
  have e1 := readOutputs_write O1 hwO1 []
  have e2 := readOutputs_write O2 hwO2 []
  rw [List.append_nil] at e1 e2
  rw [hO, ← hd.2] at e1
  have he := e2.symm.trans e1
  simp only [Option.some.injEq, Prod.mk.injEq] at he
  exact ⟨hd.1.symm, he.1.symm⟩

/-! ### C10: absent wallet path disables the phase-2 path check -/

/-- C10: when the phase-1 fold of `input_extract_wallet_path` over the inputs
leaves the wallet path absent (`None`), `input_check_wallet_path` performs no
check in phase 2: it accepts every input, whatever its `address_n`. -/
theorem c10_absent_wallet_path_no_check (I : List TxInputType)
    (h : I.foldl (fun wp txi => input_extract_wallet_path txi wp) (some []) = none)
    (txi2 : TxInputType) :
    input_check_wallet_path txi2
      (I.foldl (fun wp txi => input_extract_wallet_path txi wp) (some [])) = .ok () := by
  rw [h]
  rfl

/-- Witness for C10: a one-input transaction whose path is too short makes
the wallet path absent, after which an arbitrary phase-2 input passes the
path-consistency step. -/
theorem c10_absent_wallet_path_no_check_witness :
    ([c10_in_short].foldl (fun wp txi => input_extract_wallet_path txi wp) (some [])
        = none) ∧
    input_check_wallet_path c10_in_short
      ([c10_in_short].foldl (fun wp txi => input_extract_wallet_path txi wp) (some []))
        = .ok () :=
  ⟨by decide, c10_absent_wallet_path_no_check [c10_in_short] (by decide) c10_in_short⟩

/-! ### C9: Zcash trailer after locktime -/

/-- C9 (amended): for an overwintered coin, the bytes emitted after the
witness section are the locktime followed, for version 3, by
`expiryHeight ‖ nJoinSplit=0` (no valueBalance and no shielded counters),
for version 4 by
`expiryHeight ‖ valueBalance=0 ‖ nShieldedSpend=0 ‖ nShieldedOutput=0 ‖ nJoinSplit=0`,
and any other version is fatal. -/
theorem c9_zcash_trailer (coin : CoinInfo) (tx : SignTx) (hov : coin.overwintered = true) :
    (tx.version = 3 →
      phase2_trailer coin tx =
        .ok (write_uint32 tx.lock_time ++ write_uint32 tx.expiry ++ [0])) ∧
    (tx.version = 4 →
      phase2_trailer coin tx =
        .ok (write_uint32 tx.lock_time ++ write_uint32 tx.expiry ++
             List.replicate 8 0 ++ [0, 0, 0])) ∧
    (tx.version ≠ 3 → tx.version ≠ 4 → phase2_trailer coin tx = .error .DataError) := by
  refine ⟨fun h3 => ?_, fun h4 => ?_, fun h3 h4 => ?_⟩
  · simp [phase2_trailer, BITCOIN_ONLY, hov, h3, write_varint]
  · simp [phase2_trailer, BITCOIN_ONLY, hov, h4, write_varint, write_uint64]
  · simp [phase2_trailer, BITCOIN_ONLY, hov, h3, h4]

/-- Witness for C9: a concrete version-4 Sapling transaction gets the full
trailer with zero valueBalance and empty shielded and join-split counters. -/
theorem c9_zcash_trailer_witness :
    exCoinZcash.overwintered = true ∧
    phase2_trailer exCoinZcash exTxV4 =
      .ok (write_uint32 0 ++ write_uint32 7 ++ List.replicate 8 0 ++ [0, 0, 0]) :=
  ⟨rfl, (c9_zcash_trailer exCoinZcash exTxV4 rfl).2.1 rfl⟩

/-- Counterexample for C9 as stated: for version 3 the signer emits only
`expiryHeight ‖ nJoinSplit=0` after locktime -- the emitted trailer is not
the claimed `expiryHeight ‖ valueBalance ‖ counters` form. -/
theorem c9_counterexample :
    phase2_trailer exCoinZcash exTxV3 =
      .ok (write_uint32 0 ++ write_uint32 7 ++ write_varint 0) ∧
    write_uint32 0 ++ write_uint32 7 ++ write_varint 0 ≠
      write_uint32 0 ++ write_uint32 7 ++ write_uint64 0 ++ write_varint 0 ++
        write_varint 0 ++ write_varint 0 := by
  constructor
  · rfl
  · decide

/-! ### C6: negative-fee check -/

/-- C6: when `total_in - total_out` is negative and the coin does not permit
negative fees, phase 1 fails with `NotEnoughFunds` before any confirmation
is shown; a coin with `negative_fee` set never produces `NotEnoughFunds`. -/
theorem c6_negative_fee_check (coin : CoinInfo) (tx : SignTx)
    (total_in total_out change_out weight_total : Nat) (user : ConfirmEvent → Bool) :
    (coin.negative_fee = false → (total_in : Int) - (total_out : Int) < 0 →
      phase1_fee_tail coin tx total_in total_out change_out weight_total user =
        ([], some .NotEnoughFunds)) ∧
    (coin.negative_fee = true →
      (phase1_fee_tail coin tx total_in total_out change_out weight_total user).2 ≠
        some .NotEnoughFunds) := by
  constructor
  · intro hn hf
    simp [phase1_fee_tail, BITCOIN_ONLY, hn, hf]
  · intro hn
    simp only [phase1_fee_tail, BITCOIN_ONLY, hn]
    norm_num
    split_ifs <;> simp

/-- Witness for C6: spending 2 out of inputs worth 1 on a coin without
`negative_fee` aborts with `NotEnoughFunds` and no confirmation dialogs. -/
theorem c6_negative_fee_check_witness :
    exCoin.negative_fee = false ∧
    phase1_fee_tail exCoin exTx 1 2 0 0 (fun _ => true) = ([], some .NotEnoughFunds) :=
  ⟨rfl, (c6_negative_fee_check exCoin exTx 1 2 0 0 (fun _ => true)).1 rfl (by decide)⟩

/-! ### C4: previous-transaction value verification -/

theorem prevtx_total_of_lt (k : Nat) (outs : List TxOutputBinType) :
    ∀ o, k < o → prevtx_total k o outs = 0 := by
  induction outs with
  | nil => intro o _; rfl
  | cons t rest ih =>
    intro o ho
    simp only [prevtx_total]
    rw [if_neg (by omega), ih (o + 1) (by omega)]

theorem prevtx_total_at (outs : List TxOutputBinType) :
    ∀ o k, o ≤ k → k - o < outs.length →
      prevtx_total k o outs = (outs.getD (k - o) ⟨0, [], none⟩).amount := by
  induction outs with
  | nil => intro o k _ h; simp at h
  | cons t rest ih =>
    intro o k ho hk
    simp only [prevtx_total]
    by_cases he : o = k
    · rw [if_pos he, prevtx_total_of_lt k rest (o + 1) (by omega),
        show k - o = 0 by omega]
      simp
    · rw [if_neg (by omega)]
      have h1 : o + 1 ≤ k := by omega
      have h2 : k - (o + 1) < rest.length := by
        simp only [List.length_cons] at hk; omega
      rw [ih (o + 1) k h1 h2]
      have : k - o = (k - (o + 1)) + 1 := by omega
      rw [this]
      simp

/-- C4: `get_prevtx_output_value` succeeds exactly when the claimed
`prev_index` exists and the re-derived transaction id (double-hashed per the
coin and byte-reversed) equals the claimed `prev_hash`; the returned value is
the amount of the output at `prev_index`. -/
theorem c4_prevtx_value_verified (H : Bytes → Bytes) (coin : CoinInfo)
    (prev_hash : Bytes) (prev_index : Nat) (meta : PrevTxMeta)
    (ins : List TxInputType) (outs : List TxOutputBinType) (extra : Bytes)
    (hlen : outs.length = meta.outputs_cnt) (v : Nat) :
    get_prevtx_output_value H coin prev_hash prev_index meta ins outs extra = .ok v ↔
      (prev_index < meta.outputs_cnt ∧
       get_tx_hash H (prevtx_hash_stream coin meta ins outs extra)
         coin.sign_hash_double true = prev_hash ∧
       v = (outs.getD prev_index ⟨0, [], none⟩).amount) := by
  unfold get_prevtx_output_value
  by_cases h1 : meta.outputs_cnt ≤ prev_index
  · rw [if_pos h1]
    constructor
    · intro hc; exact absurd hc (by simp)
    · intro hc; omega
  · rw [if_neg h1]
    push_neg at h1
    by_cases h2 : get_tx_hash H (prevtx_hash_stream coin meta ins outs extra)
        coin.sign_hash_double true = prev_hash
    · rw [if_neg (by simpa using h2)]
      have ht : prevtx_total prev_index 0 outs =
          (outs.getD prev_index ⟨0, [], none⟩).amount := by
        have := prevtx_total_at outs 0 prev_index (by omega) (by omega)
        simpa using this
      simp only [ht, Except.ok.injEq]
      constructor
      · intro hv; exact ⟨h1, h2, hv.symm⟩
      · intro hv; exact hv.2.2.symm
    · rw [if_pos (by simpa using h2)]
      constructor
      · intro hc; exact absurd hc (by simp)
      · intro hc; exact absurd hc.2.1 h2

/-- Witness for C4: with the identity hash model, a one-output previous
transaction whose claimed hash is the byte-reversed stream verifies and
returns the amount at index 0. -/
theorem c4_prevtx_value_verified_witness :
    get_prevtx_output_value (fun s => s) exCoin
      ((prevtx_hash_stream exCoin c4_meta [c4_in] [c4_out] []).reverse) 0
      c4_meta [c4_in] [c4_out] [] = .ok 4 :=
  (c4_prevtx_value_verified (fun s => s) exCoin _ 0 c4_meta [c4_in] [c4_out] []
      rfl 4).mpr ⟨by decide, rfl, rfl⟩

/-! ### C5: witness emission -/

theorem getD_of_no_segwit (segwit : List Bool) :
    segwit.contains true = false → ∀ i, segwit.getD i false = false := by
  induction segwit with
  | nil => intro _ i; cases i <;> rfl
  | cons b rest ih =>
    intro h i
    simp only [List.contains_cons, Bool.or_eq_false_iff] at h
    cases i with
    | zero => simpa using h.1
    | succ j => simpa using ih h.2 j

theorem phase2_witness_loop_concat (segwit : List Bool) (witness : Nat → Bytes)
    (buf0 : Bytes) : ∀ n,
    (phase2_witness_loop n segwit witness buf0).1.flatten ++
      (phase2_witness_loop n segwit witness buf0).2 =
    buf0 ++ ((List.range n).map (fun i =>
      if segwit.getD i false then witness i
      else if segwit.contains true then [0] else [])).flatten := by
  intro n
  induction n with
  | zero => simp [phase2_witness_loop]
  | succ k ih =>
    unfold phase2_witness_loop at ih ⊢
    rw [List.range_succ, List.foldl_append, List.map_append, List.flatten_append]
    simp only [List.foldl_cons, List.foldl_nil, List.map_cons, List.map_nil,
      List.flatten_cons, List.flatten_nil, List.append_nil]
    set st := List.foldl (phase2_witness_step segwit witness) ([], buf0) (List.range k)
      with hst
    by_cases hs : segwit[k]?.getD false = true
    · rw [show phase2_witness_step segwit witness st k = (st.1 ++ [st.2], witness k) by
        simp [phase2_witness_step, List.getD, hs]]
      rw [show (if segwit.getD k false = true then witness k
          else if segwit.contains true = true then [0] else []) = witness k by
        simp [List.getD, hs]]
      simp only [List.flatten_append, List.flatten_cons, List.flatten_nil,
        List.append_nil]
      rw [← List.append_assoc, ih, List.append_assoc]
    · by_cases hc : true ∈ segwit
      · rw [show phase2_witness_step segwit witness st k = (st.1, st.2 ++ [0]) by
          simp [phase2_witness_step, List.getD, hs, hc]]
        rw [show (if segwit.getD k false = true then witness k
            else if segwit.contains true = true then [0] else []) = [0] by
          simp [List.getD, hs, hc]]
        dsimp only
        rw [← List.append_assoc, ih, List.append_assoc]
      · rw [show phase2_witness_step segwit witness st k = st by
          simp [phase2_witness_step, List.getD, hs, hc]]
        rw [show (if segwit.getD k false = true then witness k
            else if segwit.contains true = true then [0] else []) = [] by
          simp [List.getD, hs, hc]]
        rw [ih]
        simp

/-- C5: with the phase-1 segwit classification `I.map input_is_segwit`, the
witness pass emits nothing at all (and the header carries no marker/flag)
when no input is segwit; when at least one input is segwit, the emitted
witness section is exactly the witness bytes at segwit positions and a
single `0x00` byte at every other position, and the header carries the
marker and flag. -/
theorem c5_witness_section (coin : CoinInfo) (tx : SignTx) (I : List TxInputType)
    (witness : Nat → Bytes) (buf0 : Bytes) (n : Nat)
    (hplain : coin.overwintered = false) (hts : coin.timestamp = false) :
    ((I.map input_is_segwit).contains true = false →
      (phase2_witness_loop n (I.map input_is_segwit) witness buf0).1.flatten ++
        (phase2_witness_loop n (I.map input_is_segwit) witness buf0).2 = buf0 ∧
      write_tx_header coin tx (I.map input_is_segwit) =
        write_uint32 tx.version ++ write_varint tx.inputs_count) ∧
    ((I.map input_is_segwit).contains true = true →
      (phase2_witness_loop n (I.map input_is_segwit) witness buf0).1.flatten ++
        (phase2_witness_loop n (I.map input_is_segwit) witness buf0).2 =
        buf0 ++ ((List.range n).map (fun i =>
          if (I.map input_is_segwit).getD i false then witness i else [0])).flatten ∧
      write_tx_header coin tx (I.map input_is_segwit) =
        write_uint32 tx.version ++ [0, 1] ++ write_varint tx.inputs_count) := by
  constructor
  · intro hc
    have hz : ∀ i, (I.map input_is_segwit).getD i false = false :=
      getD_of_no_segwit _ hc
    have hp : (fun i => if (I.map input_is_segwit).getD i false = true then witness i
        else if (I.map input_is_segwit).contains true = true then [0] else []) =
        (fun _ : Nat => ([] : Bytes)) := by
      funext i
      rw [hz i, hc]
      simp
    constructor
    · rw [phase2_witness_loop_concat, hp]
      simp
    · have hc2 : ¬∃ a ∈ I, input_is_segwit a = true := by simpa using hc
      simp [write_tx_header, BITCOIN_ONLY, hplain, hts, hc2]
  · intro hc
    have hc2 : ∃ a ∈ I, input_is_segwit a = true := by simpa using hc
    constructor
    · rw [phase2_witness_loop_concat]
      have hp : (fun i => if (I.map input_is_segwit).getD i false = true then witness i
          else if (I.map input_is_segwit).contains true = true then [0] else []) =
          (fun i => if (I.map input_is_segwit).getD i false = true then witness i
                    else [0]) := by
        funext i
        rw [hc]
        simp
      rw [hp]
    · simp [write_tx_header, BITCOIN_ONLY, hplain, hts, hc2, write_varint]

/-- Witness for C5: one segwit and one legacy input; the emitted witness
section is the segwit witness followed by a single zero byte, and the header
carries marker and flag. -/
theorem c5_witness_section_witness :
    ([c5_in_segwit, c5_in_legacy].map input_is_segwit).contains true = true ∧
    (phase2_witness_loop 2 ([c5_in_segwit, c5_in_legacy].map input_is_segwit)
        (fun _ => [9, 9]) []).1.flatten ++
      (phase2_witness_loop 2 ([c5_in_segwit, c5_in_legacy].map input_is_segwit)
        (fun _ => [9, 9]) []).2 =
      [] ++ ((List.range 2).map (fun i =>
        if ([c5_in_segwit, c5_in_legacy].map input_is_segwit).getD i false
        then [9, 9] else [0])).flatten ∧
    write_tx_header exCoin exTx ([c5_in_segwit, c5_in_legacy].map input_is_segwit) =
      write_uint32 exTx.version ++ [0, 1] ++ write_varint exTx.inputs_count :=
  ⟨by decide,
   (c5_witness_section exCoin exTx [c5_in_segwit, c5_in_legacy] (fun _ => [9, 9]) [] 2
      rfl rfl).2 (by decide)⟩

/-! ### C7: BIP-143 preimage feeding -/

/-- C7 (code bug): the claimed BIP-143 preimage -- `version ‖ hashPrevouts ‖
hashSequence ‖ outpoint ‖ scriptCode ‖ amount ‖ nSequence ‖ hashOutputs ‖
locktime ‖ sighash` over the per-input streams fed in phase 1 -- is never
produced by the frozen program for any segwit input: `init_hash143` selects
the in-src `Bip143` hasher for every non-overwintered coin, and the first
phase-1 input then dies on the `hash143.add_prevouts` attribute lookup
(signing.py line 162; segwit_bip143.py defines only `add_input`), so the
prefix streams are never fed and `preimage_hash` is unreachable.  Stated:
the example segwit session gets the `Bip143` hasher; every phase-1 input
loop over a `Bip143`-hasher state with at least one input aborts with the
modelled `AttributeError`; and the concrete session of `c7_input` on
`exCoin` does so. -/
theorem c7_phase1_feed_crash :
    init_hash143 exCoin exTx1 = .ok (.bip143 Bip143.init) ∧
    (∀ (coin : CoinInfo) (vp fo : TxInputType → Bool) (prevs : Nat → Nat)
       (i : Nat) (st : InLoopState) (b : Bip143) (txi : TxInputType)
       (rest : List TxInputType), st.hash143 = .bip143 b →
       phase1_inputs_loop coin vp fo prevs i st (txi :: rest) =
         .error .InternalError) ∧
    phase1_inputs_loop exCoin (fun _ => true) (fun _ => true) (fun _ => 0) 0
        ⟨some [], ⟨false, none⟩, [], 0, 0, [], .bip143 Bip143.init⟩ [c7_input] =
      .error .InternalError := by
  refine ⟨rfl, ?_, rfl⟩
  intro coin vp fo prevs i st b txi rest hst
  simp [phase1_inputs_loop, phase1_process_input, hst, Hash143.add_prevouts_sequence]

/-- Witness for C7: the universal abort instantiated at the concrete segwit
session of `c7_input` on `exCoin`, discharging the hasher hypothesis. -/
theorem c7_phase1_feed_crash_witness :
    (⟨some [], ⟨false, none⟩, [], 0, 0, [],
        .bip143 Bip143.init⟩ : InLoopState).hash143 = .bip143 Bip143.init ∧
    phase1_inputs_loop exCoin (fun _ => true) (fun _ => true) (fun _ => 0) 0
        ⟨some [], ⟨false, none⟩, [], 0, 0, [], .bip143 Bip143.init⟩
        (c7_input :: []) = .error .InternalError :=
  ⟨rfl,
   c7_phase1_feed_crash.2.1 exCoin (fun _ => true) (fun _ => true) (fun _ => 0) 0
     ⟨some [], ⟨false, none⟩, [], 0, 0, [], .bip143 Bip143.init⟩ Bip143.init
     c7_input [] rfl⟩


/-! ### C8: Decred signing digest -/

theorem decred_inputs_fold (I : List TxInputType) : ∀ h : Bytes,
    I.foldl decred_add_prevouts h = h ++ (I.map write_tx_input_decred).flatten := by
  induction I with
  | nil => intro h; simp
  | cons x xs ih =>
    intro h
    simp only [List.foldl_cons, List.map_cons, List.flatten_cons]
    rw [ih]
    simp [decred_add_prevouts]

theorem decred_outputs_fold (O : List TxOutputBinType) : ∀ h : Bytes,
    O.foldl decred_add_output h = h ++ (O.map write_tx_output).flatten := by
  induction O with
  | nil => intro h; simp
  | cons x xs ih =>
    intro h
    simp only [List.foldl_cons, List.map_cons, List.flatten_cons]
    rw [ih]
    simp [decred_add_output]

/-- The full phase-1 Decred prefix stream, spelled out (for a transaction
with at least one output). -/
theorem decred_phase1_stream_spec (tx : SignTx) (I : List TxInputType)
    (O : List TxOutputBinType) (hO : O ≠ []) :
    decred_phase1_stream tx I O =
      write_uint32 (Nat.lor tx.version DECRED_SERIALIZE_NO_WITNESS) ++
      write_varint tx.inputs_count ++
      (I.map write_tx_input_decred).flatten ++
      write_varint tx.outputs_count ++
      (O.map write_tx_output).flatten ++
      write_uint32 tx.lock_time ++ write_uint32 tx.expiry := by
  unfold decred_phase1_stream decred_add_locktime_expiry decred_add_output_count
    decred_hasher_init
  rw [decred_outputs_fold, decred_inputs_fold]
  have : O.isEmpty = false := by
    cases O with
    | nil => exact absurd rfl hO
    | cons x xs => rfl
  rw [this]
  simp

/-- C8: for a single-hashing (Decred) coin, the per-input signing digest is
the hash of `SIGHASHALL ‖ prefix_hash ‖ witness_hash`, where `prefix_hash`
is the single-finalization hash of the phase-1 prefix stream and
`witness_hash` hashes `version|SERIALIZE_WITNESS_SIGNING ‖ varint(n_in)`
followed by `varint(0)` at every input position except the signing one,
which receives the length-prefixed previous pkScript -- the p2pkh script for
`SPENDADDRESS`, the multisig script when the input carries a descriptor. -/
theorem c8_decred_sig_digest (H : Bytes → Bytes) (pubkeyOf : List Nat → Bytes)
    (hashPub : Bytes → Bytes) (coin : CoinInfo) (tx : SignTx)
    (wallet_path : Option (List Nat)) (fp : MultisigFingerprint)
    (I : List TxInputType) (O : List TxOutputBinType) (i_sign : Nat) (txi : TxInputType)
    (hdb : coin.sign_hash_double = false)
    (h1 : input_check_wallet_path txi wallet_path = .ok ())
    (h2 : input_check_multisig_fingerprint txi fp = .ok ()) :
    (txi.script_type = .SPENDADDRESS →
      decred_phase2_sign_input H pubkeyOf hashPub coin tx wallet_path fp
          (decred_prefix_digest H (decred_phase1_stream tx I O)) i_sign txi =
        .ok (H (write_uint32 DECRED_SIGHASHALL ++
                H (decred_phase1_stream tx I O) ++
                H (write_uint32 (Nat.lor tx.version DECRED_SERIALIZE_WITNESS_SIGNING) ++
                   write_varint tx.inputs_count ++
                   ((List.range tx.inputs_count).map (fun ii =>
                     if ii = i_sign then
                       write_bytes_prefixed
                         (output_script_p2pkh (hashPub (pubkeyOf txi.address_n)))
                     else [0])).flatten)))) ∧
    (∀ ms, txi.script_type = .SPENDMULTISIG → txi.multisig = some ms →
      decred_phase2_sign_input H pubkeyOf hashPub coin tx wallet_path fp
          (decred_prefix_digest H (decred_phase1_stream tx I O)) i_sign txi =
        .ok (H (write_uint32 DECRED_SIGHASHALL ++
                H (decred_phase1_stream tx I O) ++
                H (write_uint32 (Nat.lor tx.version DECRED_SERIALIZE_WITNESS_SIGNING) ++
                   write_varint tx.inputs_count ++
                   ((List.range tx.inputs_count).map (fun ii =>
                     if ii = i_sign then
                       write_bytes_prefixed (output_script_multisig ms.pubkeys ms.m)
                     else [0])).flatten)))) := by
  have hv0 : write_varint 0 = [0] := rfl
  constructor
  · intro hst
    simp only [decred_phase2_sign_input, h1, h2, hst]
    simp only [decred_sig_digest, decred_witness_stream, get_tx_hash, hdb,
      Bool.false_eq_true, if_false, decred_prefix_digest, hv0]
  · intro ms hst hms
    simp only [decred_phase2_sign_input, h1, h2, hst, hms, multisig_get_pubkeys]
    simp only [decred_sig_digest, decred_witness_stream, get_tx_hash, hdb,
      Bool.false_eq_true, if_false, decred_prefix_digest, hv0]

/-- Witness for C8: concrete Decred p2pkh input over a one-input, one-output
transaction, with the identity hash model. -/
theorem c8_decred_sig_digest_witness :
    c8_input.script_type = InputScriptType.SPENDADDRESS ∧
    decred_phase2_sign_input (fun s => s) (fun _ => [3]) (fun _ => List.replicate 20 4)
        exCoinDecred exTx1 none ⟨true, none⟩
        (decred_prefix_digest (fun s => s) (decred_phase1_stream exTx1 [c8_input] [c8_out]))
        0 c8_input =
      .ok ((fun s => s) (write_uint32 DECRED_SIGHASHALL ++
        (fun s => s) (decred_phase1_stream exTx1 [c8_input] [c8_out]) ++
        (fun s => s) (write_uint32 (Nat.lor exTx1.version DECRED_SERIALIZE_WITNESS_SIGNING) ++
           write_varint exTx1.inputs_count ++
           ((List.range exTx1.inputs_count).map (fun ii =>
             if ii = 0 then
               write_bytes_prefixed (output_script_p2pkh (List.replicate 20 4))
             else [0])).flatten))) :=
  ⟨rfl,
   (c8_decred_sig_digest (fun s => s) (fun _ => [3]) (fun _ => List.replicate 20 4)
      exCoinDecred exTx1 none ⟨true, none⟩ [c8_input] [c8_out] 0 c8_input
      rfl rfl rfl).1 rfl⟩

/-! ### C2: the bip143_in budget -/

theorem input_check_wallet_path_error (txi : TxInputType) (wp : Option (List Nat))
    (e : Err) (h : input_check_wallet_path txi wp = .error e) : e = .ProcessError := by
  unfold input_check_wallet_path at h
  cases wp with
  | none => exact absurd h (by simp)
  | some w =>
    dsimp only at h
    by_cases hc : w = stripped_address_n txi
    · rw [if_pos hc] at h
      exact absurd h (by simp)
    · rw [if_neg hc] at h
      simp only [Except.error.injEq] at h
      exact h.symm

theorem input_check_multisig_fingerprint_error (txi : TxInputType)
    (fp : MultisigFingerprint) (e : Err)
    (h : input_check_multisig_fingerprint txi fp = .error e) : e = .ProcessError := by
  unfold input_check_multisig_fingerprint at h
  by_cases h1 : fp.mismatch = false
  · rw [if_pos h1] at h
    cases hms : txi.multisig with
    | none =>
      rw [hms] at h
      dsimp only at h
      simp only [Except.error.injEq] at h
      exact h.symm
    | some ms =>
      rw [hms] at h
      dsimp only at h
      by_cases h2 : fp.matches ms = true
      · rw [if_pos h2] at h
        exact absurd h (by simp)
      · rw [if_neg h2] at h
        simp only [Except.error.injEq] at h
        exact h.symm
  · rw [if_neg h1] at h
    exact absurd h (by simp)

theorem phase1_process_input_acc (coin : CoinInfo) (vp fo : TxInputType → Bool)
    (pv : Nat) (txi : TxInputType) (st st1 : InLoopState)
    (h : phase1_process_input coin vp fo pv txi st = .ok st1) :
    st1.segwit = st.segwit ++ [input_is_segwit txi] ∧
    st1.bip143_in = st.bip143_in + bip143_amount coin txi := by
  simp only [phase1_process_input] at h
  cases hh : st.hash143.add_prevouts_sequence txi with
  | error e =>
    rw [hh] at h
    exact absurd h (by simp)
  | ok h143 =>
    rw [hh] at h
    dsimp only at h
    by_cases h1 : vp txi = false ∧ fo txi = false
    · rw [if_pos h1] at h
      exact absurd h (by simp)
    · rw [if_neg h1] at h
      by_cases h2 : input_is_segwit txi = true
      · rw [if_pos h2] at h
        by_cases h3 : coin.segwit = false
        · rw [if_pos h3] at h
          exact absurd h (by simp)
        · rw [if_neg h3] at h
          by_cases h4 : optAmount txi.amount = 0
          · rw [if_pos h4] at h
            exact absurd h (by simp)
          · rw [if_neg h4] at h
            simp only [Except.ok.injEq] at h
            subst h
            exact ⟨by simp [h2], by simp [bip143_amount, h2]⟩
      · rw [if_neg h2] at h
        by_cases h5 : txi.script_type = .SPENDADDRESS ∨ txi.script_type = .SPENDMULTISIG
        · rw [if_pos h5] at h
          by_cases h6 : (!BITCOIN_ONLY && (coin.force_bip143 || coin.overwintered)) = true
          · rw [if_pos h6] at h
            by_cases h7 : optAmount txi.amount = 0
            · rw [if_pos h7] at h
              exact absurd h (by simp)
            · rw [if_neg h7] at h
              simp only [Except.ok.injEq] at h
              subst h
              refine ⟨by simp [h2], ?_⟩
              simp only [bip143_amount, h2, Bool.false_eq_true, if_false, h6, if_true]
          · rw [if_neg h6] at h
            simp only [Except.ok.injEq] at h
            subst h
            refine ⟨by simp [h2], ?_⟩
            simp only [bip143_amount, h2, Bool.false_eq_true, if_false, h6]
            simp
        · rw [if_neg h5] at h
          exact absurd h (by simp)

theorem phase1_inputs_loop_acc (coin : CoinInfo) (vp fo : TxInputType → Bool)
    (prevs : Nat → Nat) : ∀ (l : List TxInputType) (i : Nat) (st st' : InLoopState),
    phase1_inputs_loop coin vp fo prevs i st l = .ok st' →
    st'.segwit = st.segwit ++ l.map input_is_segwit ∧
    st'.bip143_in = st.bip143_in + (l.map (bip143_amount coin)).sum := by
  intro l
  induction l with
  | nil =>
    intro i st st' h
    simp only [phase1_inputs_loop, Except.ok.injEq] at h
    subst h
    simp
  | cons x xs ih =>
    intro i st st' h
    simp only [phase1_inputs_loop] at h
    cases hstep : phase1_process_input coin vp fo (prevs i) x st with
    | error e =>
      rw [hstep] at h
      exact absurd h (by simp)
    | ok st1 =>
      rw [hstep] at h
      obtain ⟨hs1, hb1⟩ := phase1_process_input_acc coin vp fo (prevs i) x st st1 hstep
      obtain ⟨hs2, hb2⟩ := ih (i + 1) st1 st' h
      constructor
      · rw [hs2, hs1]
        simp
      · rw [hb2, hb1]
        simp only [List.map_cons, List.sum_cons]
        omega

theorem phase2_sign_segwit_input_ok (H : Bytes → Bytes) (pk : List Nat → Bytes)
    (hp : Bytes → Bytes) (coin : CoinInfo) (tx : SignTx) (wp : Option (List Nat))
    (fp : MultisigFingerprint) (b : Bip143) (bip : Nat) (txi : TxInputType)
    (d : Bytes) (b' : Nat)
    (h : phase2_sign_segwit_input H pk hp coin tx wp fp b bip txi = .ok (d, b')) :
    ∃ am, txi.amount = some am ∧ am ≤ bip ∧ b' = bip - am := by
  unfold phase2_sign_segwit_input at h
  cases h1 : input_check_wallet_path txi wp with
  | error e =>
    rw [h1] at h
    exact absurd h (by simp)
  | ok u =>
    rw [h1] at h
    dsimp only at h
    cases h2 : input_check_multisig_fingerprint txi fp with
    | error e =>
      rw [h2] at h
      exact absurd h (by simp)
    | ok u2 =>
      rw [h2] at h
      dsimp only at h
      by_cases h3 : input_is_segwit txi = false
      · rw [if_pos h3] at h
        exact absurd h (by simp)
      · rw [if_neg h3] at h
        cases ham : txi.amount with
        | none =>
          rw [ham] at h
          exact absurd h (by simp)
        | some am =>
          rw [ham] at h
          dsimp only at h
          by_cases h4 : bip < am
          · rw [if_pos h4] at h
            exact absurd h (by simp)
          · rw [if_neg h4] at h
            cases h5 : Bip143.preimage_hash H b coin tx txi (hp (pk txi.address_n))
                (get_hash_type coin) with
            | error e =>
              rw [h5] at h
              exact absurd h (by simp)
            | ok dg =>
              rw [h5] at h
              dsimp only at h
              cases hms : txi.multisig with
              | none =>
                rw [hms] at h
                dsimp only at h
                simp only [Except.ok.injEq, Prod.mk.injEq] at h
                exact ⟨am, rfl, by omega, h.2.symm⟩
              | some ms =>
                rw [hms] at h
                dsimp only at h
                cases h6 : multisig_pubkey_index ms (pk txi.address_n) with
                | error e =>
                  rw [h6] at h
                  exact absurd h (by simp)
                | ok idx =>
                  rw [h6] at h
                  dsimp only at h
                  simp only [Except.ok.injEq, Prod.mk.injEq] at h
                  exact ⟨am, rfl, by omega, h.2.symm⟩

theorem phase2_sign_segwit_input_overdraw (H : Bytes → Bytes) (pk : List Nat → Bytes)
    (hp : Bytes → Bytes) (coin : CoinInfo) (tx : SignTx) (wp : Option (List Nat))
    (fp : MultisigFingerprint) (b : Bip143) (bip : Nat) (txi : TxInputType) (am : Nat)
    (ham : txi.amount = some am) (hover : bip < am) :
    phase2_sign_segwit_input H pk hp coin tx wp fp b bip txi = .error .ProcessError := by
  unfold phase2_sign_segwit_input
  cases h1 : input_check_wallet_path txi wp with
  | error e =>
    simp only [h1]
    rw [input_check_wallet_path_error txi wp e h1]
  | ok u =>
    simp only [h1]
    cases h2 : input_check_multisig_fingerprint txi fp with
    | error e =>
      simp only [h2]
      rw [input_check_multisig_fingerprint_error txi fp e h2]
    | ok u2 =>
      simp only [h2]
      by_cases h3 : input_is_segwit txi = false
      · rw [if_pos h3]
      · rw [if_neg h3, ham]
        dsimp only
        rw [if_pos hover]

theorem phase2_witness_sign_loop_budget (H : Bytes → Bytes) (pk : List Nat → Bytes)
    (hp : Bytes → Bytes) (coin : CoinInfo) (tx : SignTx) (wp : Option (List Nat))
    (fp : MultisigFingerprint) (b : Bip143) (segwit : List Bool) :
    ∀ (l : List TxInputType) (i bip : Nat) (sigs : List (Nat × Bytes)) (bipf : Nat),
    phase2_witness_sign_loop H pk hp coin tx wp fp b segwit i bip l = .ok (sigs, bipf) →
    segwit_signed_sum segwit i l ≤ bip ∧
    bipf + segwit_signed_sum segwit i l = bip := by
  intro l
  induction l with
  | nil =>
    intro i bip sigs bipf h
    simp only [phase2_witness_sign_loop, Except.ok.injEq, Prod.mk.injEq] at h
    simp only [segwit_signed_sum]
    omega
  | cons x xs ih =>
    intro i bip sigs bipf h
    simp only [phase2_witness_sign_loop] at h
    by_cases hs : segwit.getD i false = true
    · rw [if_pos hs] at h
      cases hsign : phase2_sign_segwit_input H pk hp coin tx wp fp b bip x with
      | error e =>
        rw [hsign] at h
        exact absurd h (by simp)
      | ok p =>
        obtain ⟨d, bip1⟩ := p
        rw [hsign] at h
        dsimp only at h
        cases hrec : phase2_witness_sign_loop H pk hp coin tx wp fp b segwit
            (i + 1) bip1 xs with
        | error e =>
          rw [hrec] at h
          exact absurd h (by simp)
        | ok q =>
          obtain ⟨sigs1, bipf1⟩ := q
          rw [hrec] at h
          dsimp only at h
          simp only [Except.ok.injEq, Prod.mk.injEq] at h
          obtain ⟨am, ham, hle, hb⟩ :=
            phase2_sign_segwit_input_ok H pk hp coin tx wp fp b bip x d bip1 hsign
          obtain ⟨ih1, ih2⟩ := ih (i + 1) bip1 sigs1 bipf1 hrec
          simp only [segwit_signed_sum, hs, if_true, ham, optAmount, Option.getD_some]
          subst hb
          constructor <;> omega
    · rw [if_neg hs] at h
      obtain ⟨ih1, ih2⟩ := ih (i + 1) bip sigs bipf h
      simp only [segwit_signed_sum, hs, Bool.false_eq_true, if_false]
      constructor <;> omega

theorem phase2_sign_bip143_input_ok (H : Bytes → Bytes) (pk : List Nat → Bytes)
    (hp : Bytes → Bytes) (coin : CoinInfo) (tx : SignTx) (wp : Option (List Nat))
    (fp : MultisigFingerprint) (h143 : Hash143) (bip : Nat) (txi : TxInputType)
    (d : Bytes) (b' : Nat)
    (h : phase2_sign_bip143_input H pk hp coin tx wp fp h143 bip txi = .ok (d, b')) :
    ∃ am, txi.amount = some am ∧ am ≤ bip ∧ b' = bip - am := by
  unfold phase2_sign_bip143_input at h
  cases h1 : input_check_wallet_path txi wp with
  | error e =>
    rw [h1] at h
    exact absurd h (by simp)
  | ok u =>
    rw [h1] at h
    dsimp only at h
    cases h2 : input_check_multisig_fingerprint txi fp with
    | error e =>
      rw [h2] at h
      exact absurd h (by simp)
    | ok u2 =>
      rw [h2] at h
      dsimp only at h
      by_cases h3 : txi.script_type = .SPENDADDRESS ∨ txi.script_type = .SPENDMULTISIG
      · rw [if_neg (not_not_intro h3)] at h
        cases ham : txi.amount with
        | none =>
          rw [ham] at h
          exact absurd h (by simp)
        | some am =>
          rw [ham] at h
          dsimp only at h
          by_cases h4 : bip < am
          · rw [if_pos h4] at h
            exact absurd h (by simp)
          · rw [if_neg h4] at h
            cases h5 : Hash143.preimage_hash h143 H coin tx txi (hp (pk txi.address_n))
                (get_hash_type coin) with
            | error e =>
              rw [h5] at h
              exact absurd h (by simp)
            | ok dg =>
              rw [h5] at h
              dsimp only at h
              cases hms : txi.multisig with
              | none =>
                rw [hms] at h
                dsimp only at h
                simp only [Except.ok.injEq, Prod.mk.injEq] at h
                exact ⟨am, rfl, by omega, h.2.symm⟩
              | some ms =>
                rw [hms] at h
                dsimp only at h
                cases h6 : multisig_pubkey_index ms (pk txi.address_n) with
                | error e =>
                  rw [h6] at h
                  exact absurd h (by simp)
                | ok idx =>
                  rw [h6] at h
                  dsimp only at h
                  simp only [Except.ok.injEq, Prod.mk.injEq] at h
                  exact ⟨am, rfl, by omega, h.2.symm⟩
      · rw [if_pos h3] at h
        exact absurd h (by simp)

theorem phase2_sign_bip143_input_overdraw (H : Bytes → Bytes) (pk : List Nat → Bytes)
    (hp : Bytes → Bytes) (coin : CoinInfo) (tx : SignTx) (wp : Option (List Nat))
    (fp : MultisigFingerprint) (h143 : Hash143) (bip : Nat) (txi : TxInputType) (am : Nat)
    (ham : txi.amount = some am) (hover : bip < am) :
    phase2_sign_bip143_input H pk hp coin tx wp fp h143 bip txi = .error .ProcessError := by
  unfold phase2_sign_bip143_input
  cases h1 : input_check_wallet_path txi wp with
  | error e =>
    simp only [h1]
    rw [input_check_wallet_path_error txi wp e h1]
  | ok u =>
    simp only [h1]
    cases h2 : input_check_multisig_fingerprint txi fp with
    | error e =>
      simp only [h2]
      rw [input_check_multisig_fingerprint_error txi fp e h2]
    | ok u2 =>
      simp only [h2]
      by_cases h3 : txi.script_type = .SPENDADDRESS ∨ txi.script_type = .SPENDMULTISIG
      · rw [if_neg (not_not_intro h3), ham]
        dsimp only
        rw [if_pos hover]
      · rw [if_pos h3]

theorem phase2_bip143_sign_loop_budget (H : Bytes → Bytes) (pk : List Nat → Bytes)
    (hp : Bytes → Bytes) (coin : CoinInfo) (tx : SignTx) (wp : Option (List Nat))
    (fp : MultisigFingerprint) (h143 : Hash143) :
    ∀ (l : List TxInputType) (i bip : Nat) (sigs : List (Nat × Bytes)) (bipf : Nat),
    phase2_bip143_sign_loop H pk hp coin tx wp fp h143 i bip l = .ok (sigs, bipf) →
    (l.map (fun t => optAmount t.amount)).sum ≤ bip ∧
    bipf + (l.map (fun t => optAmount t.amount)).sum = bip := by
  intro l
  induction l with
  | nil =>
    intro i bip sigs bipf h
    simp only [phase2_bip143_sign_loop, Except.ok.injEq, Prod.mk.injEq] at h
    simp only [List.map_nil, List.sum_nil]
    omega
  | cons x xs ih =>
    intro i bip sigs bipf h
    simp only [phase2_bip143_sign_loop] at h
    cases hsign : phase2_sign_bip143_input H pk hp coin tx wp fp h143 bip x with
    | error e =>
      rw [hsign] at h
      exact absurd h (by simp)
    | ok p =>
      obtain ⟨d, bip1⟩ := p
      rw [hsign] at h
      dsimp only at h
      cases hrec : phase2_bip143_sign_loop H pk hp coin tx wp fp h143 (i + 1) bip1 xs with
      | error e =>
        rw [hrec] at h
        exact absurd h (by simp)
      | ok q =>
        obtain ⟨sigs1, bipf1⟩ := q
        rw [hrec] at h
        dsimp only at h
        simp only [Except.ok.injEq, Prod.mk.injEq] at h
        obtain ⟨am, ham, hle, hb⟩ :=
          phase2_sign_bip143_input_ok H pk hp coin tx wp fp h143 bip x d bip1 hsign
        obtain ⟨ih1, ih2⟩ := ih (i + 1) bip1 sigs1 bipf1 hrec
        simp only [optAmount] at ih1 ih2 ⊢
        simp only [List.map_cons, List.sum_cons, ham, Option.getD_some]
        subst hb
        constructor <;> omega

/-- C2 (amended): the signer enforces the `bip143_in` budget, not a
per-input bound: phase 1 accumulates `bip143_in` as the sum of the declared
segwit/forced-BIP-143 amounts (when it completes -- its hasher must
implement the `add_prevouts`/`add_sequence` calls, which of the Bitcoin
dispatch only the spec-modelled Zcash hashers do), and in phase 2 each
input signed through `phase2_sign_bip143_input` (or the segwit witness
pass) may not re-declare more than the remaining budget, which it then
decrements; an overdraw raises `ProcessError` in either pass.  An
individual input's phase-2 amount may exceed its own phase-1 amount. -/
theorem c2_bip143_budget (H : Bytes → Bytes) (pk : List Nat → Bytes)
    (hp : Bytes → Bytes) (coin : CoinInfo) (tx : SignTx) (wp : Option (List Nat))
    (fp : MultisigFingerprint) (h143 : Hash143) (b : Bip143)
    (vp fo : TxInputType → Bool) (prevs : Nat → Nat) :
    (∀ (l : List TxInputType) (i : Nat) (st st' : InLoopState),
       phase1_inputs_loop coin vp fo prevs i st l = .ok st' →
       st'.bip143_in = st.bip143_in + (l.map (bip143_amount coin)).sum) ∧
    (∀ (l : List TxInputType) (i bip : Nat) (sigs : List (Nat × Bytes)) (bipf : Nat),
       phase2_bip143_sign_loop H pk hp coin tx wp fp h143 i bip l = .ok (sigs, bipf) →
       (l.map (fun t => optAmount t.amount)).sum ≤ bip ∧
       bipf + (l.map (fun t => optAmount t.amount)).sum = bip) ∧
    (∀ (txi : TxInputType) (bip am : Nat), txi.amount = some am → bip < am →
       phase2_sign_bip143_input H pk hp coin tx wp fp h143 bip txi =
         .error .ProcessError) ∧
    (∀ (txi : TxInputType) (bip am : Nat), txi.amount = some am → bip < am →
       phase2_sign_segwit_input H pk hp coin tx wp fp b bip txi =
         .error .ProcessError) :=
  ⟨fun l i st st' h => (phase1_inputs_loop_acc coin vp fo prevs l i st st' h).2,
   fun l i bip sigs bipf h =>
     phase2_bip143_sign_loop_budget H pk hp coin tx wp fp h143 l i bip sigs bipf h,
   fun txi bip am ham hov =>
     phase2_sign_bip143_input_overdraw H pk hp coin tx wp fp h143 bip txi am ham hov,
   fun txi bip am ham hov =>
     phase2_sign_segwit_input_overdraw H pk hp coin tx wp fp b bip txi am ham hov⟩

/-- Witness for C2 (amended): an input re-declared with amount 5 against a
remaining budget of 3 aborts with `ProcessError`. -/
theorem c2_bip143_budget_witness :
    c2_zin1a.amount = some 5 ∧
    phase2_sign_bip143_input (fun s => s) (fun _ => [3]) (fun _ => List.replicate 20 4)
        exCoinZcash exTxZ2 none ⟨true, none⟩ (.zip ⟨0x76B809BB, [], [], []⟩) 3 c2_zin1a =
      .error .ProcessError :=
  ⟨rfl,
   (c2_bip143_budget (fun s => s) (fun _ => [3]) (fun _ => List.replicate 20 4)
      exCoinZcash exTxZ2 none ⟨true, none⟩ (.zip ⟨0x76B809BB, [], [], []⟩) Bip143.init
      (fun _ => true) (fun _ => true) (fun _ => 0)).2.2.1 c2_zin1a 3 5 rfl (by omega)⟩

/-- Counterexample for C2 as stated: on the overwintered coin -- the one
Bitcoin-class dispatch whose phase 1 completes, through the spec-modelled
Zcash hasher implementing the `add_prevouts`/`add_sequence` calls of
signing.py lines 162-163 -- two BIP-143-forced inputs declare 5 and 5 in
phase 1 (`bip143_in = 10`); in phase 2 the first input re-declares 9 --
more than its phase-1 amount -- yet the signing pass signs both inputs
without any error, because only the running total is checked. -/
theorem c2_counterexample :
    init_hash143 exCoinZcash exTxZ2 = .ok (.zip ⟨0x76B809BB, [], [], []⟩) ∧
    (phase1_inputs_loop exCoinZcash (fun _ => true) (fun _ => true) (fun _ => 0) 0
        ⟨some [], ⟨false, none⟩, [], 0, 0, [], .zip ⟨0x76B809BB, [], [], []⟩⟩
        [c2_zin1a, c2_zin1b]).map InLoopState.bip143_in = .ok 10 ∧
    optAmount c2_zin2a.amount = 9 ∧
    optAmount c2_zin1a.amount = 5 ∧
    (phase2_bip143_sign_loop (fun s => s) (fun _ => [3]) (fun _ => List.replicate 20 4)
        exCoinZcash exTxZ2 none ⟨true, none⟩ (.zip ⟨0x76B809BB, [], [], []⟩) 0 10
        [c2_zin2a, c2_zin2b]).map (fun p => (p.1.map Prod.fst, p.2)) = .ok ([0, 1], 0) :=
  ⟨rfl, rfl, rfl, rfl, rfl⟩


/-! ### C3: silent change and confirmation -/

theorem list_take_two_split (a : List Nat) (h : 2 ≤ a.length) :
    a = a.take (a.length - 2) ++
      [a.getD (a.length - 2) 0, a.getD (a.length - 1) 0] := by
  have h1 : a.length - 2 < a.length := by omega
  have h2 : a.length - 1 < a.length := by omega
  conv_lhs => rw [← List.take_append_drop (a.length - 2) a]
  congr 1
  rw [List.drop_eq_getElem_cons h1, show a.length - 2 + 1 = a.length - 1 by omega,
    List.drop_eq_getElem_cons h2, show a.length - 1 + 1 = a.length by omega,
    List.drop_length]
  rw [List.getD_eq_getElem a 0 h1, List.getD_eq_getElem a 0 h2]

/-- Outputs accepted by `output_is_change` satisfy the spec's qualification:
change-capable script type, fingerprint-matching multisig, and a path that
extends the wallet path by exactly `[chain, index]` within the bounds. -/
theorem output_is_change_ok_true (wp : Option (List Nat)) (fp : MultisigFingerprint)
    (o : TxOutputType) (h : output_is_change wp fp o = .ok true) :
    o.script_type ∈ CHANGE_OUTPUT_SCRIPT_TYPES ∧
    (∀ ms, o.multisig = some ms → fp.matches ms = true) ∧
    ∃ w c idx, wp = some w ∧ o.address_n = w ++ [c, idx] ∧
      c ≤ BIP32_CHANGE_CHAIN ∧ idx ≤ BIP32_MAX_LAST_ELEMENT := by
  unfold output_is_change at h
  by_cases h1 : o.script_type ∈ CHANGE_OUTPUT_SCRIPT_TYPES
  · rw [if_neg (by simpa using h1)] at h
    by_cases h2 : (match o.multisig with
                   | some ms => !fp.matches ms
                   | none => false) = true
    · rw [if_pos h2] at h
      exact absurd h (by simp)
    · rw [if_neg h2] at h
      cases wp with
      | none => exact absurd h (by simp)
      | some w =>
        dsimp only at h
        by_cases h3 : w = o.address_n.take (o.address_n.length - BIP32_WALLET_DEPTH)
        · rw [if_neg (by simpa using h3)] at h
          by_cases h4 : o.address_n.length < 2
          · rw [if_pos h4] at h
            exact absurd h (by simp)
          · rw [if_neg h4] at h
            simp only [Except.ok.injEq, decide_eq_true_eq] at h
            refine ⟨h1, ?_, w, o.address_n.getD (o.address_n.length - 2) 0,
              o.address_n.getD (o.address_n.length - 1) 0, rfl, ?_, h.1, h.2⟩
            · intro ms hms
              rw [hms] at h2
              simpa using h2
            · rw [h3]
              exact list_take_two_split o.address_n (by omega)
        · rw [if_pos (by simpa using h3)] at h
          exact absurd h (by simp)
  · rw [if_pos (by simpa using h1)] at h
    exact absurd h (by simp)

theorem phase1_confirm_output_cases (wp : Option (List Nat)) (fp : MultisigFingerprint)
    (user : Nat → Bool) (i : Nat) (txo : TxOutputType) (txo_bin : TxOutputBinType)
    (st st1 : OutLoopState)
    (h : phase1_confirm_output wp fp user i txo txo_bin st = .ok st1) :
    (st.change_out = 0 ∧ output_is_change wp fp txo = .ok true ∧
      st1.accepted = st.accepted ++ [(i, txo)] ∧ st1.confirmed = st.confirmed ∧
      st1.change_out = txo.amount) ∨
    (st1.accepted = st.accepted ∧ st1.confirmed = st.confirmed ++ [(i, txo)] ∧
      st1.change_out = st.change_out) := by
  unfold phase1_confirm_output at h
  by_cases hc : st.change_out = 0
  · rw [if_pos hc] at h
    cases hoc : output_is_change wp fp txo with
    | error e =>
      rw [hoc] at h
      exact absurd h (by simp)
    | ok silent =>
      rw [hoc] at h
      dsimp only at h
      by_cases hsil : silent = true
      · subst hsil
        rw [if_pos rfl] at h
        dsimp only at h
        simp only [Except.ok.injEq] at h
        subst h
        left
        exact ⟨hc, rfl, by simp, by simp, by simp⟩
      · rw [if_neg hsil] at h
        by_cases hu : user i = true
        · rw [if_pos hu] at h
          dsimp only at h
          simp only [Except.ok.injEq] at h
          subst h
          right
          exact ⟨by simp, by simp, by simp⟩
        · rw [if_neg hu] at h
          exact absurd h (by simp)
  · rw [if_neg hc] at h
    by_cases hu : user i = true
    · rw [if_pos hu] at h
      simp only [Bool.false_eq_true, if_false] at h
      simp only [Except.ok.injEq] at h
      subst h
      right
      exact ⟨by simp, by simp, by simp⟩
    · rw [if_neg hu] at h
      exact absurd h (by simp)

theorem phase1_outputs_loop_spec (wp : Option (List Nat)) (fp : MultisigFingerprint)
    (user : Nat → Bool) (derive : TxOutputType → Bytes) :
    ∀ (l : List TxOutputType) (i : Nat) (st st' : OutLoopState),
    phase1_outputs_loop wp fp user derive i st l = .ok st' →
    ∃ A C, st'.accepted = st.accepted ++ A ∧ st'.confirmed = st.confirmed ++ C ∧
      ((A.map Prod.fst ++ C.map Prod.fst).Perm (List.range' i l.length)) ∧
      (∀ p ∈ A, output_is_change wp fp p.2 = .ok true) ∧
      (st.change_out = 0 → (A.filter (fun p => p.2.amount != 0)).length ≤ 1) ∧
      (st.change_out ≠ 0 → A = []) := by
  intro l
  induction l with
  | nil =>
    intro i st st' h
    simp only [phase1_outputs_loop, Except.ok.injEq] at h
    subst h
    exact ⟨[], [], by simp, by simp, by simp [List.range'], by simp, by simp, by simp⟩
  | cons x xs ih =>
    intro i st st' h
    simp only [phase1_outputs_loop] at h
    cases hstep : phase1_confirm_output wp fp user i x ⟨x.amount, derive x, none⟩ st with
    | error e =>
      rw [hstep] at h
      exact absurd h (by simp)
    | ok st1 =>
      rw [hstep] at h
      obtain ⟨A', C', ha, hcf, hperm, hch, hf1, hf2⟩ := ih (i + 1) st1 st' h
      rcases phase1_confirm_output_cases wp fp user i x _ st st1 hstep with
        ⟨hc0, hoc, ha1, hc1, hco⟩ | ⟨ha1, hc1, hco⟩
      · refine ⟨(i, x) :: A', C', ?_, ?_, ?_, ?_, ?_, ?_⟩
        · rw [ha, ha1]
          simp
        · rw [hcf, hc1]
        · simp only [List.map_cons, List.length_cons, List.range'_succ, List.cons_append]
          exact List.Perm.cons i hperm
        · intro p hp
          rcases List.mem_cons.1 hp with hp1 | hp1
          · rw [hp1]
            exact hoc
          · exact hch p hp1
        · intro _
          by_cases hx : x.amount = 0
          · have hz1 : st1.change_out = 0 := by rw [hco, hx]
            have hlen := hf1 hz1
            simp only [List.filter_cons]
            rw [if_neg (by simp [hx])]
            exact hlen
          · have hz1 : st1.change_out ≠ 0 := by rw [hco]; exact hx
            have hA' := hf2 hz1
            subst hA'
            simp [List.filter_cons, hx]
        · intro hnz
          exact absurd hc0 hnz
      · refine ⟨A', (i, x) :: C', ?_, ?_, ?_, hch, ?_, ?_⟩
        · rw [ha, ha1]
        · rw [hcf, hc1]
          simp
        · simp only [List.map_cons, List.length_cons, List.range'_succ]
          exact (List.perm_middle).trans (List.Perm.cons i hperm)
        · intro hz
          exact hf1 (by rw [hco]; exact hz)
        · intro hnz
          exact hf2 (by rw [hco]; exact hnz)

/-- C3 (amended): in a completed phase-1 output pass, every output is either
accepted as silent change or confirmed exactly once; every accepted output
satisfies the change-qualification conditions (change-capable script type,
fingerprint-matching multisig, wallet path extended by exactly
`[chain, index]` within the bounds); and at most one accepted output has a
nonzero amount -- but zero-amount change outputs are accepted silently
without consuming the single silent-change slot. -/
theorem c3_change_single_silent (wp : Option (List Nat)) (fp : MultisigFingerprint)
    (user : Nat → Bool) (derive : TxOutputType → Bytes) (txos : List TxOutputType)
    (st' : OutLoopState)
    (h : phase1_outputs_loop wp fp user derive 0 ⟨0, 0, [], Bip143.init, [], []⟩ txos
      = .ok st') :
    ((st'.accepted.map Prod.fst ++ st'.confirmed.map Prod.fst).Perm
      (List.range txos.length)) ∧
    (∀ p ∈ st'.accepted, output_is_change wp fp p.2 = .ok true) ∧
    (∀ p ∈ st'.accepted, p.2.script_type ∈ CHANGE_OUTPUT_SCRIPT_TYPES ∧
      (∀ ms, p.2.multisig = some ms → fp.matches ms = true) ∧
      ∃ w c idx, wp = some w ∧ p.2.address_n = w ++ [c, idx] ∧
        c ≤ BIP32_CHANGE_CHAIN ∧ idx ≤ BIP32_MAX_LAST_ELEMENT) ∧
    (st'.accepted.filter (fun p => p.2.amount != 0)).length ≤ 1 := by
  obtain ⟨A, C, ha, hcf, hperm, hch, hf1, hf2⟩ :=
    phase1_outputs_loop_spec wp fp user derive txos 0 _ st' h
  simp only [List.nil_append] at ha hcf
  subst ha
  subst hcf
  refine ⟨?_, hch, ?_, hf1 rfl⟩
  · rw [List.range_eq_range']
    exact hperm
  · intro p hp
    exact output_is_change_ok_true wp fp p.2 (hch p hp)

/-- Witness for C3 (amended): a single qualifying change output with nonzero
amount is accepted silently; nothing is confirmed, the partition is the
single index, and the qualification conditions hold. -/
theorem c3_change_single_silent_witness :
    phase1_outputs_loop (some [44, 0, 0]) ⟨true, none⟩ (fun _ => true) (fun _ => [0x51])
        0 ⟨0, 0, [], Bip143.init, [], []⟩ [c3_out1] =
      .ok ⟨5, 5, [5, 0, 0, 0, 0, 0, 0, 0, 1, 0x51],
           ⟨[], [], [5, 0, 0, 0, 0, 0, 0, 0, 1, 0x51]⟩, [(0, c3_out1)], []⟩ ∧
    (([(0, c3_out1)].map Prod.fst ++ ([] : List (Nat × TxOutputType)).map Prod.fst).Perm
      (List.range 1) ∧
     (∀ p ∈ [(0, c3_out1)], output_is_change (some [44, 0, 0]) ⟨true, none⟩ p.2
        = .ok true) ∧
     (∀ p ∈ [(0, c3_out1)], p.2.script_type ∈ CHANGE_OUTPUT_SCRIPT_TYPES ∧
       (∀ ms, p.2.multisig = some ms →
         MultisigFingerprint.matches ⟨true, none⟩ ms = true) ∧
       ∃ w c idx, (some [44, 0, 0] : Option (List Nat)) = some w ∧
         p.2.address_n = w ++ [c, idx] ∧
         c ≤ BIP32_CHANGE_CHAIN ∧ idx ≤ BIP32_MAX_LAST_ELEMENT) ∧
     ([(0, c3_out1)].filter (fun p => p.2.amount != 0)).length ≤ 1) :=
  ⟨rfl,
   c3_change_single_silent (some [44, 0, 0]) ⟨true, none⟩ (fun _ => true)
     (fun _ => [0x51]) [c3_out1]
     ⟨5, 5, [5, 0, 0, 0, 0, 0, 0, 0, 1, 0x51],
      ⟨[], [], [5, 0, 0, 0, 0, 0, 0, 0, 1, 0x51]⟩, [(0, c3_out1)], []⟩ rfl⟩

/-- Counterexample for C3 as stated: a change output with amount 0 does not
consume the silent-change slot (`change_out` stays 0), so a second change
output is also accepted silently -- two outputs skip confirmation and no
`confirm_output` call is made. -/
theorem c3_counterexample :
    (phase1_outputs_loop (some [44, 0, 0]) ⟨true, none⟩ (fun _ => true) (fun _ => [0x51])
        0 ⟨0, 0, [], Bip143.init, [], []⟩ [c3_out0, c3_out1]).map
      (fun st => (st.accepted.map Prod.fst, st.confirmed.map Prod.fst)) =
      .ok ([0, 1], []) ∧
    c3_out0.amount = 0 ∧ c3_out1.amount = 5 :=
  ⟨rfl, rfl, rfl⟩

/-! ### C1: phase-2 tampering on legacy inputs -/

theorem legacy_input_step_ok (pk : List Nat → Bytes) (hp : Bytes → Bytes)
    (wp : Option (List Nat)) (fp : MultisigFingerprint) (i_sign i : Nat)
    (txi : TxInputType) (acc acc1 : LegacyLoopAcc)
    (h : legacy_input_step pk hp wp fp i_sign i txi acc = .ok acc1) :
    acc1.h_second = acc.h_second ++ write_tx_input_check txi := by
  unfold legacy_input_step at h
  cases h1 : input_check_wallet_path txi wp with
  | error e =>
    rw [h1] at h
    exact absurd h (by simp)
  | ok u =>
    rw [h1] at h
    dsimp only at h
    by_cases h2 : i = i_sign
    · rw [if_pos h2] at h
      cases h3 : input_check_multisig_fingerprint txi fp with
      | error e =>
        rw [h3] at h
        exact absurd h (by simp)
      | ok u2 =>
        rw [h3] at h
        dsimp only at h
        cases hst : txi.script_type with
        | SPENDMULTISIG =>
          rw [hst] at h
          dsimp only at h
          cases hms : txi.multisig with
          | none =>
            rw [hms] at h
            exact absurd h (by simp)
          | some ms =>
            rw [hms] at h
            dsimp only at h
            simp only [Except.ok.injEq] at h
            subst h
            simp
        | SPENDADDRESS =>
          rw [hst] at h
          dsimp only at h
          simp only [Except.ok.injEq] at h
          subst h
          simp
        | SPENDWITNESS =>
          rw [hst] at h
          exact absurd h (by simp)
        | SPENDP2SHWITNESS =>
          rw [hst] at h
          exact absurd h (by simp)
    · rw [if_neg h2] at h
      simp only [Except.ok.injEq] at h
      subst h
      simp

theorem legacy_input_step_err (pk : List Nat → Bytes) (hp : Bytes → Bytes)
    (wp : Option (List Nat)) (fp : MultisigFingerprint) (i_sign i : Nat)
    (txi : TxInputType) (acc : LegacyLoopAcc) (e : Err)
    (hgx : i = i_sign → txi.script_type = .SPENDMULTISIG → txi.multisig ≠ none)
    (h : legacy_input_step pk hp wp fp i_sign i txi acc = .error e) :
    e = .ProcessError := by
  unfold legacy_input_step at h
  cases h1 : input_check_wallet_path txi wp with
  | error e1 =>
    rw [h1] at h
    dsimp only at h
    simp only [Except.error.injEq] at h
    subst h
    exact input_check_wallet_path_error txi wp e1 h1
  | ok u =>
    rw [h1] at h
    dsimp only at h
    by_cases h2 : i = i_sign
    · rw [if_pos h2] at h
      cases h3 : input_check_multisig_fingerprint txi fp with
      | error e1 =>
        rw [h3] at h
        dsimp only at h
        simp only [Except.error.injEq] at h
        subst h
        exact input_check_multisig_fingerprint_error txi fp e1 h3
      | ok u2 =>
        rw [h3] at h
        dsimp only at h
        cases hst : txi.script_type with
        | SPENDMULTISIG =>
          rw [hst] at h
          dsimp only at h
          cases hms : txi.multisig with
          | none => exact absurd hms (hgx h2 hst)
          | some ms =>
            rw [hms] at h
            exact absurd h (by simp)
        | SPENDADDRESS =>
          rw [hst] at h
          exact absurd h (by simp)
        | SPENDWITNESS =>
          rw [hst] at h
          dsimp only at h
          simp only [Except.error.injEq] at h
          exact h.symm
        | SPENDP2SHWITNESS =>
          rw [hst] at h
          dsimp only at h
          simp only [Except.error.injEq] at h
          exact h.symm
    · rw [if_neg h2] at h
      exact absurd h (by simp)

theorem legacy_inputs_loop_spec (pk : List Nat → Bytes) (hp : Bytes → Bytes)
    (wp : Option (List Nat)) (fp : MultisigFingerprint) (i_sign : Nat) :
    ∀ (l : List TxInputType) (i : Nat) (acc : LegacyLoopAcc),
    (∀ acc', legacy_inputs_loop pk hp wp fp i_sign i acc l = .ok acc' →
      acc'.h_second = acc.h_second ++ (l.map write_tx_input_check).flatten) ∧
    ((∀ p ∈ l.enumFrom i, p.1 = i_sign → p.2.script_type = .SPENDMULTISIG →
        p.2.multisig ≠ none) →
      ∀ e, legacy_inputs_loop pk hp wp fp i_sign i acc l = .error e →
        e = .ProcessError) := by
  intro l
  induction l with
  | nil =>
    intro i acc
    constructor
    · intro acc' h
      simp only [legacy_inputs_loop, Except.ok.injEq] at h
      subst h
      simp
    · intro _ e h
      simp only [legacy_inputs_loop] at h
      exact absurd h (by simp)
  | cons x xs ih =>
    intro i acc
    constructor
    · intro acc' h
      simp only [legacy_inputs_loop] at h
      cases hstep : legacy_input_step pk hp wp fp i_sign i x acc with
      | error e =>
        rw [hstep] at h
        exact absurd h (by simp)
      | ok acc1 =>
        rw [hstep] at h
        have hs1 := legacy_input_step_ok pk hp wp fp i_sign i x acc acc1 hstep
        have hs2 := (ih (i + 1) acc1).1 acc' h
        rw [hs2, hs1]
        simp
    · intro hg e h
      simp only [legacy_inputs_loop] at h
      cases hstep : legacy_input_step pk hp wp fp i_sign i x acc with
      | error e1 =>
        rw [hstep] at h
        simp only [Except.error.injEq] at h
        subst h
        refine legacy_input_step_err pk hp wp fp i_sign i x acc e1 ?_ hstep
        intro hi hst
        exact hg (i, x)
          (by rw [show (x :: xs).enumFrom i = (i, x) :: xs.enumFrom (i + 1) from rfl]
              exact List.mem_cons_self _ _) hi hst
      | ok acc1 =>
        rw [hstep] at h
        refine (ih (i + 1) acc1).2 ?_ e h
        intro p hp hpi hpst
        exact hg p
          (by rw [show (x :: xs).enumFrom i = (i, x) :: xs.enumFrom (i + 1) from rfl]
              exact List.mem_cons_of_mem _ hp) hpi hpst

/-- C1 (amended): if any committed field of an input or binary output
streamed in phase 2 differs from its phase-1 value (at any index), the
legacy signing pass returns an error before any signature digest is
produced; the error is `ProcessError` in every case except when the signing
input's script type was switched to multisig with no descriptor attached,
where the session dies on an unhandled attribute error instead.  This
theorem covers the `ProcessError` portion: under that single exclusion,
tampering yields exactly `ProcessError` (in particular the digest comparison
`h_second = h_first` is enforced before signing). -/
theorem c1_legacy_tamper_aborts (H : Bytes → Bytes) (hH : Function.Injective H)
    (pk : List Nat → Bytes) (hp : Bytes → Bytes) (coin : CoinInfo) (tx : SignTx)
    (wp : Option (List Nat)) (fp : MultisigFingerprint) (i_sign : Nat)
    (I1 I2 : List TxInputType) (O1 O2 : List TxOutputBinType)
    (hwI1 : ∀ t ∈ I1, t.wf) (hwI2 : ∀ t ∈ I2, t.wf)
    (hwO1 : ∀ o ∈ O1, o.wf) (hwO2 : ∀ o ∈ O2, o.wf)
    (hIlen : I1.length = I2.length) (hOlen : O1.length = O2.length)
    (hg : ∀ p ∈ I2.enumFrom 0, p.1 = i_sign → p.2.script_type = .SPENDMULTISIG →
      p.2.multisig ≠ none)
    (hdiv : I1.map inputCheckView ≠ I2.map inputCheckView ∨
      O1.map outputView ≠ O2.map outputView) :
    phase2_sign_legacy_input H pk hp coin tx wp fp (h_first_stream I1 O1) i_sign I2 O2
      = .error .ProcessError := by
  simp only [phase2_sign_legacy_input]
  cases hloop : legacy_inputs_loop pk hp wp fp i_sign 0
      ⟨[], write_uint32 tx.version ++
        (if !BITCOIN_ONLY && coin.timestamp then write_uint32 tx.timestamp else []) ++
        write_varint tx.inputs_count, none⟩ I2 with
  | error e =>
    dsimp only
    rw [(legacy_inputs_loop_spec pk hp wp fp i_sign I2 0 _).2 hg e hloop]
  | ok acc =>
    dsimp only
    have hsec : acc.h_second = (I2.map write_tx_input_check).flatten := by
      have := (legacy_inputs_loop_spec pk hp wp fp i_sign I2 0 _).1 acc hloop
      simpa using this
    have hne : get_tx_hash H (h_first_stream I1 O1) false false ≠
        get_tx_hash H (acc.h_second ++ (O2.map write_tx_output).flatten) false false := by
      intro heq
      simp only [get_tx_hash, Bool.false_eq_true, if_false] at heq
      have hstreams : h_first_stream I1 O1 = h_first_stream I2 O2 := by
        have hHs := hH heq
        rw [hsec] at hHs
        exact hHs
      obtain ⟨hv1, hv2⟩ :=
        h_first_stream_inj I1 I2 O1 O2 hIlen hOlen hwI1 hwI2 hwO1 hwO2 hstreams
      rcases hdiv with hd | hd
      · exact hd hv1
      · exact hd hv2
    rw [if_pos hne]

/-- Witness for C1 (amended): re-declaring the single legacy input with
amount 6 instead of 5 in phase 2 makes the signer abort with
`ProcessError`. -/
theorem c1_legacy_tamper_aborts_witness :
    Function.Injective (fun s : Bytes => s) ∧
    phase2_sign_legacy_input (fun s => s) (fun _ => [3]) (fun _ => List.replicate 20 4)
        exCoin exTx1 (some [44, 0, 0]) ⟨true, none⟩
        (h_first_stream [c1_input1] [c1_output]) 0 [c1_input3] [c1_output] =
      .error .ProcessError :=
  ⟨fun _ _ hab => hab,
   c1_legacy_tamper_aborts (fun s => s) (fun _ _ hab => hab) (fun _ => [3])
     (fun _ => List.replicate 20 4) exCoin exTx1 (some [44, 0, 0]) ⟨true, none⟩ 0
     [c1_input1] [c1_input3] [c1_output] [c1_output]
     (by decide) (by decide) (by decide) (by decide) rfl rfl (by decide)
     (Or.inl (by decide))⟩

/-- Counterexample for C1 as stated: switching the signing input's script
type from `SPENDADDRESS` to `SPENDMULTISIG` between the phases -- a change
of the `script_type` field -- does not produce a `ProcessError`: the signer
dies on an unhandled attribute error (`txi_sign.multisig.m` on `None`,
signing.py line 419) before reaching the digest comparison. -/
theorem c1_counterexample :
    inputCheckView c1_input1 ≠ inputCheckView c1_input2 ∧
    Err.InternalError ≠ Err.ProcessError ∧
    phase2_sign_legacy_input (fun s => s) (fun _ => [3]) (fun _ => List.replicate 20 4)
        exCoin exTx1 (some [44, 0, 0]) ⟨true, none⟩
        (h_first_stream [c1_input1] [c1_output]) 0 [c1_input2] [c1_output] =
      .error .InternalError :=
  ⟨by decide, by decide, rfl⟩

end TrezorSign
